/-
Verification of the masu report ingestion and reconciliation engine.

This file gives a shallow embedding, in Lean 4, of the parts of the masu
code base that the specification's testable properties talk about:

  * the lifecycle cleaner (`masu/processor/aws/aws_report_db_cleaner.py`),
  * the report processor constructor (`masu/processor/report_processor.py`),
  * the HTTP DELETE /report_data/ endpoint (`masu/api/report_data.py`),
  * the incremental downloader (`masu/external/downloader/aws/aws_report_downloader.py`),
  * the AWS row transformer and staged merge-upsert store
    (`masu/processor/aws/aws_report_processor.py` and the merge of
    `masu/database/ocp_report_db_accessor.py`).

Python dictionaries are embedded as association lists (first match wins,
insertion order preserved); database tables as lists of rows; fallible
operations as `Except`; machine-level concerns (real I/O, SQL execution)
are replaced by explicit state passing over these structures.  Helper
collaborators of the embedded code whose source is not part of the
repository snapshot are modelled from the specification and are marked
as such in their doc comments.
-/
import Mathlib

/-! ## Association-list helpers (embedding of Python dicts) -/

/-- Lookup in an insertion-ordered association list, first match wins,
mirroring Python `dict.__getitem__` / `dict.get`. -/
def alLookup {α β : Type} [DecidableEq α] (m : List (α × β)) (k : α) : Option β :=
  match m with
  | [] => none
  | (k₀, v₀) :: rest => if k = k₀ then some v₀ else alLookup rest k

/-- Set a key in an association list: replace the first binding in place if
present, otherwise append at the end, mirroring Python `dict.__setitem__`. -/
def alSet {α β : Type} [DecidableEq α] (m : List (α × β)) (k : α) (v : β) : List (α × β) :=
  match m with
  | [] => [(k, v)]
  | (k₀, v₀) :: rest => if k = k₀ then (k₀, v) :: rest else (k₀, v₀) :: alSet rest k v

/-- Merge the bindings of `adds` into `m`, mirroring Python `dict.update`. -/
def alUpdate {α β : Type} [DecidableEq α] (m adds : List (α × β)) : List (α × β) :=
  adds.foldl (fun acc kv => alSet acc kv.1 kv.2) m

/-- Embedding of Python `str.lower()` (the inputs of interest are ASCII). -/
def pyLower (s : String) : String := ⟨s.data.map Char.toLower⟩

/-- Embedding of Python `str.upper()` (the inputs of interest are ASCII). -/
def pyUpper (s : String) : String := ⟨s.data.map Char.toUpper⟩

/-- Strip `sep` from the front of `l`: `some` of the remainder when `sep` is
a prefix of `l`. -/
def stripSep : List Char → List Char → Option (List Char)
  | [], rest => some rest
  | _ :: _, [] => none
  | c :: cs, d :: ds => if c = d then stripSep cs ds else none

/-- Fuel-bounded splitter over character lists (structurally recursive so the
kernel can evaluate it; the fuel is the input length, which always suffices
for a nonempty separator). -/
def pySplitAux (sep : List Char) (fuel : Nat) (l : List Char) : List (List Char) :=
  match fuel with
  | 0 => [l]
  | fuel + 1 =>
    match l with
    | [] => [[]]
    | c :: cs =>
      match stripSep sep l with
      | some rest => [] :: pySplitAux sep fuel rest
      | none =>
        match pySplitAux sep fuel cs with
        | [] => [[c]]
        | p :: ps => (c :: p) :: ps

/-- Embedding of Python `s.split(sep)` for a nonempty separator. -/
def pySplit (s sep : String) : List String :=
  (pySplitAux sep.data s.data.length s.data).map (fun cs => ⟨cs⟩)

/-! ## Lifecycle cleaner (`AWSReportDBCleaner.purge_expired_report_data`) -/

/-- Error raised during AWS report cleaning (class `AWSReportDBCleanerError`). -/
inductive AWSReportDBCleanerFailure where
  | usage (msg : String)
  deriving Repr, DecidableEq

/-- A row of the cost-entry bill table as the cleaner sees it: database id,
payer account id, billing period start (dates embedded as naturals) and the
owning provider id. -/
structure CleanerBill where
  id : Nat
  payerAccountId : String
  billingPeriodStart : Nat
  providerId : Nat
  deriving Repr, DecidableEq

/-- The slice of the durable store that the cleaner reads and mutates:
bills, cost entries (id, owning bill id) and line items (id, owning bill id). -/
structure CleanerDB where
  bills : List CleanerBill
  costEntries : List (Nat × Nat)
  lineItems : List (Nat × Nat)
  deriving Repr, DecidableEq

/-- One entry of the list returned by the cleaner: the payer account and the
billing period start of a removed (or would-be-removed) bill. -/
structure RemovedItem where
  accountPayerId : String
  billingPeriodStart : String
  deriving Repr, DecidableEq

/-- Modelled from the spec: the AWS report DB accessor's
`get_bill_query_before_date` (the accessor module is not part of the source
snapshot; only the cleaner that calls it is).  Selects candidate bills by
period cutoff, as the in-source OCP analogue `get_usage_period_before_date`
does with `report_start <= date`. -/
def billBeforeDatePred (expiredDate : Nat) (b : CleanerBill) : Bool :=
  b.billingPeriodStart ≤ expiredDate

/-- Modelled from the spec: the AWS report DB accessor's
`get_cost_entry_bills_query_by_provider` (not part of the source snapshot).
Selects candidate bills owned by the given provider. -/
def billByProviderPred (providerId : Nat) (b : CleanerBill) : Bool :=
  b.providerId = providerId

/-- The `for bill in bill_objects.all()` loop of `purge_expired_report_data`:
in non-simulate mode delete the line items, then the cost entries, of each
candidate bill; in both modes append the bill's payer account and billing
period to the removed-items list. -/
def purgeLoop (simulate : Bool) (bills : List CleanerBill) (db : CleanerDB)
    (acc : List RemovedItem) : List RemovedItem × CleanerDB :=
  match bills with
  | [] => (acc, db)
  | b :: rest =>
      let db' :=
        if simulate = false then
          { db with
            lineItems := db.lineItems.filter (fun li => li.2 ≠ b.id),
            costEntries := db.costEntries.filter (fun ce => ce.2 ≠ b.id) }
        else db
      purgeLoop simulate rest db'
        (acc ++ [⟨b.payerAccountId, toString b.billingPeriodStart⟩])

/-- Embedding of `AWSReportDBCleaner.purge_expired_report_data`: validate that
exactly one of `expired_date` / `provider_id` was supplied, select the
candidate bills, run the per-bill loop, and finally (non-simulate only)
delete the bills matched by the selection query. -/
def purge_expired_report_data (db : CleanerDB) (expiredDate : Option Nat)
    (providerId : Option Nat) (simulate : Bool) :
    Except AWSReportDBCleanerFailure (List RemovedItem × CleanerDB) :=
  if (expiredDate.isNone && providerId.isNone) ||
      (expiredDate.isSome && providerId.isSome) then
    .error (.usage "This method must be called with either expired_date or provider_id")
  else
    let billPred : CleanerBill → Bool :=
      match expiredDate with
      | some d => billBeforeDatePred d
      | none => billByProviderPred (providerId.getD 0)
    let billObjects := db.bills.filter billPred
    let loopOut := purgeLoop simulate billObjects db []
    let db2 :=
      if simulate = false then
        { loopOut.2 with bills := loopOut.2.bills.filter (fun b => ¬ billPred b) }
      else loopOut.2
    .ok (loopOut.1, db2)

theorem purgeLoop_items (simulate : Bool) (bills : List CleanerBill) :
    ∀ (db : CleanerDB) (acc : List RemovedItem),
    (purgeLoop simulate bills db acc).1 =
      acc ++ bills.map (fun b => ⟨b.payerAccountId, toString b.billingPeriodStart⟩) := by
  induction bills with
  | nil => intro db acc; simp [purgeLoop]
  | cons b rest ih => intro db acc; simp [purgeLoop, ih]

theorem purgeLoop_simulate_db (bills : List CleanerBill) :
    ∀ (db : CleanerDB) (acc : List RemovedItem),
    (purgeLoop true bills db acc).2 = db := by
  induction bills with
  | nil => intro db acc; simp [purgeLoop]
  | cons b rest ih => intro db acc; simp [purgeLoop, ih]

/-- C3: `purge_expired_report_data` raises the `AWSReportDBCleanerError` usage
error, touching no data, whenever both of `expired_date` / `provider_id` are
supplied or neither is; when exactly one is supplied, argument validation does
not raise and the call returns a result. -/
theorem purge_argument_exclusivity (db : CleanerDB)
    (expiredDate providerId : Option Nat) (simulate : Bool) :
    (((expiredDate = none ∧ providerId = none) ∨
       (expiredDate.isSome ∧ providerId.isSome)) →
      purge_expired_report_data db expiredDate providerId simulate =
        .error (.usage "This method must be called with either expired_date or provider_id")) ∧
    ((expiredDate.isSome ↔ providerId = none) →
      ∃ out, purge_expired_report_data db expiredDate providerId simulate = .ok out) := by
  constructor
  · rintro (⟨h1, h2⟩ | ⟨h1, h2⟩)
    · subst h1; subst h2; simp [purge_expired_report_data]
    · rcases Option.isSome_iff_exists.mp h1 with ⟨d, rfl⟩
      rcases Option.isSome_iff_exists.mp h2 with ⟨p, rfl⟩
      simp [purge_expired_report_data]
  · intro h
    cases expiredDate <;> cases providerId <;>
      simp_all [purge_expired_report_data, Option.isSome]

/-- Witness for `purge_argument_exclusivity` at concrete inputs. -/
theorem purge_argument_exclusivity_witness :
    (purge_expired_report_data ⟨[], [], []⟩ (some 5) (some 7) false =
      .error (.usage "This method must be called with either expired_date or provider_id")) ∧
    ∃ out, purge_expired_report_data ⟨[], [], []⟩ (some 5) none false = .ok out :=
  ⟨(purge_argument_exclusivity ⟨[], [], []⟩ (some 5) (some 7) false).1
      (Or.inr ⟨rfl, rfl⟩),
   (purge_argument_exclusivity ⟨[], [], []⟩ (some 5) none false).2
      (by simp [Option.isSome])⟩

/-- C2: for every cutoff date (or provider id), the simulate-mode call of
`purge_expired_report_data` returns exactly the list of
(payer account, billing period start) entries — one per candidate bill — that
the non-simulate call would remove, and the simulate call mutates nothing:
the database component it returns is the input database. -/
theorem purge_simulate_symmetry (db : CleanerDB)
    (expiredDate providerId : Option Nat) :
    ((purge_expired_report_data db expiredDate providerId true).map Prod.fst =
      (purge_expired_report_data db expiredDate providerId false).map Prod.fst) ∧
    (∀ out, purge_expired_report_data db expiredDate providerId true = .ok out →
      out.2 = db) := by
  constructor
  · by_cases hv : (expiredDate.isNone && providerId.isNone) ||
        (expiredDate.isSome && providerId.isSome)
    · simp [purge_expired_report_data, hv]
    · simp [purge_expired_report_data, hv, purgeLoop_items, Except.map]
  · intro out hout
    by_cases hv : (expiredDate.isNone && providerId.isNone) ||
        (expiredDate.isSome && providerId.isSome)
    · simp [purge_expired_report_data, hv] at hout
    · simp [purge_expired_report_data, hv, purgeLoop_simulate_db] at hout
      simp [← hout]

/-- Witness for `purge_simulate_symmetry` at a concrete database and cutoff. -/
theorem purge_simulate_symmetry_witness :
    ((purge_expired_report_data
        ⟨[⟨1, "payer1", 3, 9⟩, ⟨2, "payer2", 8, 9⟩], [(10, 1)], [(20, 1)]⟩
        (some 5) none true).map Prod.fst =
      (purge_expired_report_data
        ⟨[⟨1, "payer1", 3, 9⟩, ⟨2, "payer2", 8, 9⟩], [(10, 1)], [(20, 1)]⟩
        (some 5) none false).map Prod.fst) ∧
    (∀ out, purge_expired_report_data
        ⟨[⟨1, "payer1", 3, 9⟩, ⟨2, "payer2", 8, 9⟩], [(10, 1)], [(20, 1)]⟩
        (some 5) none true = .ok out →
      out.2 = ⟨[⟨1, "payer1", 3, 9⟩, ⟨2, "payer2", 8, 9⟩], [(10, 1)], [(20, 1)]⟩) :=
  purge_simulate_symmetry
    ⟨[⟨1, "payer1", 3, 9⟩, ⟨2, "payer2", 8, 9⟩], [(10, 1)], [(20, 1)]⟩
    (some 5) none

/-! ## Report processor construction (`ReportProcessor.__init__`) -/

/-- Modelled from the spec: the `UNCOMPRESSED` constant of `masu.external`
(module not part of the source snapshot); the task-layer docstring gives the
wire value `'PLAIN'`. -/
def UNCOMPRESSED : String := "PLAIN"

/-- Modelled from the spec: the `GZIP_COMPRESSED` constant of `masu.external`
(module not part of the source snapshot); the task-layer docstring gives the
wire value `'GZIP'`. -/
def GZIP_COMPRESSED : String := "GZIP"

/-- Modelled from the spec: `ALLOWED_COMPRESSIONS` of `masu.processor`
(module not part of the source snapshot): the two accepted compression kinds. -/
def ALLOWED_COMPRESSIONS : List String := [UNCOMPRESSED, GZIP_COMPRESSED]

/-- Error raised for processing configuration errors (`MasuProcessingError`). -/
inductive MasuProcessingFailure where
  | processingError (msg : String)
  deriving Repr, DecidableEq

/-- The fields of a successfully constructed `ReportProcessor` that the
compression check protects (constructed only after validation passes). -/
structure ReportProcessorState where
  schemaName : String
  reportPath : String
  cursorPos : Nat
  compression : String
  deriving Repr, DecidableEq

/-- Embedding of `ReportProcessor.__init__`: reject the construction with
`MasuProcessingError` when the upper-cased compression argument is not in
`ALLOWED_COMPRESSIONS`, before any file or database accessor is touched;
otherwise record the arguments (compression stored upper-cased). -/
def reportProcessorInit (schemaName reportPath compression : String)
    (cursorPos : Nat) : Except MasuProcessingFailure ReportProcessorState :=
  if pyUpper compression ∉ ALLOWED_COMPRESSIONS then
    .error (.processingError ("Compression " ++ compression ++ " is not supported."))
  else
    .ok ⟨schemaName, reportPath, cursorPos, pyUpper compression⟩

/-- C9 counterexample: the compression value `"plain"` is a value other than
`UNCOMPRESSED` (`"PLAIN"`) and `GZIP_COMPRESSED` (`"GZIP"`), yet constructing
the report processor with it is not rejected — `__init__` upper-cases the
argument before the membership test — so the claim as stated (every value
other than the two constants is rejected) fails at this input. -/
theorem reportProcessorInit_lowercase_accepted :
    (reportProcessorInit "acct10001" "/tmp/report.csv" "plain" 0 =
      .ok ⟨"acct10001", "/tmp/report.csv", 0, "PLAIN"⟩) ∧
    "plain" ≠ UNCOMPRESSED ∧ "plain" ≠ GZIP_COMPRESSED := by
  refine ⟨?_, by decide, by decide⟩
  have hmem : pyUpper "plain" ∈ ALLOWED_COMPRESSIONS := by decide
  simp [reportProcessorInit, hmem]
  decide

/-- C9 (amended): construction succeeds exactly when the upper-cased
compression argument is `UNCOMPRESSED` or `GZIP_COMPRESSED`; every other
value is rejected synchronously with `MasuProcessingError`, before any file
or database state is touched. -/
theorem reportProcessorInit_compression_validation
    (schemaName reportPath compression : String) (cursorPos : Nat) :
    (∃ st, reportProcessorInit schemaName reportPath compression cursorPos = .ok st) ↔
      (pyUpper compression = UNCOMPRESSED ∨ pyUpper compression = GZIP_COMPRESSED) := by
  by_cases h : pyUpper compression ∈ ALLOWED_COMPRESSIONS
  · simp only [reportProcessorInit, h, not_true, if_neg, ite_false, not_not]
    simp [ALLOWED_COMPRESSIONS] at h
    simp [h]
  · simp only [reportProcessorInit, h, not_false_iff, ite_true]
    simp [ALLOWED_COMPRESSIONS] at h
    simp [h.1, h.2]

/-! ## HTTP DELETE /report_data/ endpoint (`remove_report_data`) -/

/-- Observable outcome of the endpoint: an HTTP 400 with an `Error` body, or
the dispatch of the `remove_expired_data` task with the forwarded arguments. -/
inductive RemoveReportDataResult where
  | badRequest (errmsg : String)
  | taskDispatched (schemaName provider : String) (simulate : Bool) (providerId : String)
  deriving Repr, DecidableEq

/-- Embedding of the DELETE handler `remove_report_data` of
`masu/api/report_data.py`: validate the required query parameters, reject a
`simulate` value whose lower-casing is neither `'true'` nor `'false'`, default
`simulate` to real removal when absent, and dispatch the removal task. -/
def remove_report_data (schema provider providerId simulate : Option String) :
    RemoveReportDataResult :=
  match schema with
  | none => .badRequest "schema is a required parameter."
  | some schemaName =>
    match provider with
    | none => .badRequest "provider is a required parameter."
    | some providerName =>
      match providerId with
      | none => .badRequest "provider_id is a required parameter."
      | some pid =>
        match simulate with
        | some s =>
          if pyLower s ≠ "true" ∧ pyLower s ≠ "false" then
            .badRequest "simulate must be a boolean."
          else
            .taskDispatched schemaName providerName (pyLower s == "true") pid
        | none => .taskDispatched schemaName providerName false pid

/-- C10: with the required parameters present, the DELETE /report_data/
endpoint defaults to non-simulated removal when `simulate` is absent; a
present `simulate` whose lower-casing is neither `'true'` nor `'false'`
yields HTTP 400 with an Error body and dispatches nothing; lower-casing to
`'true'` dispatches with simulation on, and to `'false'` with simulation off. -/
theorem remove_report_data_simulate_handling
    (schemaName providerName pid : String) :
    (remove_report_data (some schemaName) (some providerName) (some pid) none =
      .taskDispatched schemaName providerName false pid) ∧
    (∀ s : String, pyLower s ≠ "true" → pyLower s ≠ "false" →
      remove_report_data (some schemaName) (some providerName) (some pid) (some s) =
        .badRequest "simulate must be a boolean.") ∧
    (∀ s : String, pyLower s = "true" →
      remove_report_data (some schemaName) (some providerName) (some pid) (some s) =
        .taskDispatched schemaName providerName true pid) ∧
    (∀ s : String, pyLower s = "false" →
      remove_report_data (some schemaName) (some providerName) (some pid) (some s) =
        .taskDispatched schemaName providerName false pid) := by
  refine ⟨rfl, ?_, ?_, ?_⟩
  · intro s h1 h2
    simp [remove_report_data, h1, h2]
  · intro s h
    simp [remove_report_data, h]
  · intro s h
    simp [remove_report_data, h]

/-- Witness for `remove_report_data_simulate_handling`: concrete dispatches
and rejection for the mixed-case value `"TrUe"`, the invalid value `"yes"`,
and the value `"False"`. -/
theorem remove_report_data_simulate_handling_witness :
    (remove_report_data (some "acct10001") (some "AWS") (some "3") none =
      .taskDispatched "acct10001" "AWS" false "3") ∧
    (remove_report_data (some "acct10001") (some "AWS") (some "3") (some "yes") =
      .badRequest "simulate must be a boolean.") ∧
    (remove_report_data (some "acct10001") (some "AWS") (some "3") (some "TrUe") =
      .taskDispatched "acct10001" "AWS" true "3") ∧
    (remove_report_data (some "acct10001") (some "AWS") (some "3") (some "False") =
      .taskDispatched "acct10001" "AWS" false "3") :=
  ⟨(remove_report_data_simulate_handling "acct10001" "AWS" "3").1,
   (remove_report_data_simulate_handling "acct10001" "AWS" "3").2.1 "yes"
     (by decide) (by decide),
   (remove_report_data_simulate_handling "acct10001" "AWS" "3").2.2.1 "TrUe"
     (by decide),
   (remove_report_data_simulate_handling "acct10001" "AWS" "3").2.2.2 "False"
     (by decide)⟩

/-! ## Incremental downloader (`AWSReportDownloader`) -/

/-- Outcome of `s3_client.get_object` for one key: the object (with its ETag
content identity tag), a `NoSuchKey` client error, or another client error. -/
inductive S3GetObjectResult where
  | object (etag : String)
  | noSuchKey
  | clientError (code : String)
  deriving Repr, DecidableEq

/-- The two typed failures of the AWS report downloader:
`AWSReportDownloaderNoFileError` and `AWSReportDownloaderError`. -/
inductive AWSReportDownloaderFailure where
  | noFileError (msg : String)
  | downloaderError (msg : String)
  deriving Repr, DecidableEq

/-- Modelled from the spec: `masu.util.aws.common.get_local_file_name` (module
not part of the source snapshot): derives the local file name from the remote
object key. -/
def get_local_file_name (key : String) : String :=
  (pySplit key "/").getLastD key

/-- The full local path `download_file` stores a key under:
`{customer_name}/aws/{bucket}/{local_s3_filename}` (the temporary-directory
prefix from the configuration module is elided). -/
def downloadFilePath (customerName bucket key : String) : String :=
  customerName ++ "/aws/" ++ bucket ++ "/" ++ get_local_file_name key

/-- Result of a successful `download_file` call: the returned local path and
ETag, the local file set afterwards, and whether a transfer was performed. -/
structure DownloadFileOutcome where
  localPath : String
  etag : String
  localFiles : List String
  transferred : Bool
  deriving Repr, DecidableEq

/-- Embedding of `AWSReportDownloader.download_file`: fetch the object's ETag;
translate `NoSuchKey` into `AWSReportDownloaderNoFileError` and any other
client error into `AWSReportDownloaderError`; transfer the file exactly when
the remote ETag differs from the stored one or the local copy is absent;
return the local path and the remote ETag.  The local filesystem is the list
`localFiles` of existing paths. -/
def download_file (s3 : String → S3GetObjectResult) (localFiles : List String)
    (customerName bucket key : String) (storedEtag : Option String) :
    Except AWSReportDownloaderFailure DownloadFileOutcome :=
  let s3Filename := (pySplit key "/").getLastD key
  let fullFilePath := downloadFilePath customerName bucket key
  match s3 key with
  | .noSuchKey =>
      .error (.noFileError ("Unable to find " ++ s3Filename ++ " in S3 Bucket: " ++ bucket))
  | .clientError code => .error (.downloaderError code)
  | .object s3Etag =>
      if some s3Etag ≠ storedEtag ∨ fullFilePath ∉ localFiles then
        .ok ⟨fullFilePath, s3Etag, fullFilePath :: localFiles, true⟩
      else
        .ok ⟨fullFilePath, s3Etag, localFiles, false⟩

/-- C4: when the remote object exists, `download_file` transfers it exactly
when the remote ETag differs from the stored one or the local copy is absent;
with a matching ETag and an existing local copy nothing is transferred and the
filesystem is untouched; the call returns the local path and the current
remote ETag, and a second invocation fed the returned ETag (remote content
unchanged) performs zero transfers. -/
theorem download_file_conditional_transfer (s3 : String → S3GetObjectResult)
    (localFiles : List String) (customerName bucket key : String)
    (storedEtag : Option String) (etag : String)
    (hobj : s3 key = .object etag) :
    ∃ out, download_file s3 localFiles customerName bucket key storedEtag = .ok out ∧
      out.localPath = downloadFilePath customerName bucket key ∧
      out.etag = etag ∧
      (out.transferred = true ↔
        (some etag ≠ storedEtag ∨ downloadFilePath customerName bucket key ∉ localFiles)) ∧
      (out.transferred = false → out.localFiles = localFiles) ∧
      download_file s3 out.localFiles customerName bucket key (some etag) =
        .ok ⟨downloadFilePath customerName bucket key, etag, out.localFiles, false⟩ := by
  by_cases hc : some etag ≠ storedEtag ∨ downloadFilePath customerName bucket key ∉ localFiles
  · refine ⟨⟨downloadFilePath customerName bucket key, etag,
        downloadFilePath customerName bucket key :: localFiles, true⟩, ?_, rfl, rfl, ?_, ?_, ?_⟩
    · simp [download_file, hobj, hc]
    · simp [hc]
    · intro h; cases h
    · simp [download_file, hobj]
  · push_neg at hc
    refine ⟨⟨downloadFilePath customerName bucket key, etag, localFiles, false⟩, ?_, rfl, rfl, ?_, ?_, ?_⟩
    · simp [download_file, hobj, hc.1, hc.2]
    · simp [hc.1, hc.2]
    · intro _; rfl
    · simp [download_file, hobj, hc.2]

/-- Witness for `download_file_conditional_transfer` at a concrete remote
store holding one key. -/
theorem download_file_conditional_transfer_witness :
    ∃ out,
      download_file
        (fun k => if k = "prefix/name/file.csv.gz" then .object "etag-1" else .noSuchKey)
        [] "customer" "bucket" "prefix/name/file.csv.gz" none = .ok out ∧
      out.localPath = downloadFilePath "customer" "bucket" "prefix/name/file.csv.gz" ∧
      out.etag = "etag-1" ∧
      (out.transferred = true ↔
        (some "etag-1" ≠ none ∨
          downloadFilePath "customer" "bucket" "prefix/name/file.csv.gz" ∉ ([] : List String))) ∧
      (out.transferred = false → out.localFiles = []) ∧
      download_file
        (fun k => if k = "prefix/name/file.csv.gz" then .object "etag-1" else .noSuchKey)
        out.localFiles "customer" "bucket" "prefix/name/file.csv.gz" (some "etag-1") =
        .ok ⟨downloadFilePath "customer" "bucket" "prefix/name/file.csv.gz", "etag-1",
             out.localFiles, false⟩ :=
  download_file_conditional_transfer
    (fun k => if k = "prefix/name/file.csv.gz" then .object "etag-1" else .noSuchKey)
    [] "customer" "bucket" "prefix/name/file.csv.gz" none "etag-1" (by simp)

/-- A parsed CUR manifest document: optional assembly id, the listed report
file keys, and an optional billing period start. `{'reportKeys': []}` — the
`empty_manifest` — has no assembly id and no billing period. -/
structure AwsManifest where
  assemblyId : Option String
  reportKeys : List String
  billingPeriodStart : Option String
  deriving Repr, DecidableEq

/-- The `empty_manifest` class attribute: `{'reportKeys': []}`. -/
def empty_manifest : AwsManifest := ⟨none, [], none⟩

/-- The remote object store as the downloader sees it: per-key object lookup
results, plus the parsed JSON content of a (manifest) object once its local
copy is read back after a successful download. -/
structure S3World where
  getObject : String → S3GetObjectResult
  manifestContent : String → AwsManifest

/-- The remote key of the manifest for a billing period:
`{s3_prefix}/{report_name}/{date_range}/{report_name}-Manifest.json`, with the
date range taken as the already-formatted output of `month_date_range`. -/
def manifestKeyFor (s3Prefix reportName dateRange : String) : String :=
  s3Prefix ++ "/" ++ reportName ++ "/" ++ dateRange ++ "/" ++ reportName ++ "-Manifest.json"

/-- Embedding of `AWSReportDownloader._get_manifest`: attempt to download the
manifest object; a `AWSReportDownloaderNoFileError` (remote not-found) is
absorbed into the `empty_manifest` result; any other failure propagates; on
success the downloaded document is parsed and returned. -/
def _get_manifest (w : S3World) (localFiles : List String)
    (customerName bucket s3Prefix reportName dateRange : String) :
    Except AWSReportDownloaderFailure (AwsManifest × List String) :=
  let manifestKey := manifestKeyFor s3Prefix reportName dateRange
  match download_file w.getObject localFiles customerName bucket manifestKey none with
  | .error (.noFileError _) => .ok (empty_manifest, localFiles)
  | .error e => .error e
  | .ok out => .ok (w.manifestContent manifestKey, out.localFiles)

/-- Modelled from the spec: the manifest tracking store behind
`ReportManifestDBAccessor` (module not part of the source snapshot): records
keyed by (assembly id, provider id); `_process_manifest_db_record` reuses an
existing record's id or creates one (`mark_manifest_as_updated` only touches a
timestamp and is elided). -/
structure ManifestRecordStore where
  nextId : Nat
  records : List ((Option String × Nat) × Nat)
  deriving Repr, DecidableEq

/-- Embedding of `AWSReportDownloader._process_manifest_db_record` over the
modelled manifest store: idempotent insert-or-reuse keyed on
(assembly id, provider id), returning the record id. -/
def _process_manifest_db_record (store : ManifestRecordStore) (providerId : Nat)
    (manifest : AwsManifest) : Nat × ManifestRecordStore :=
  match alLookup store.records (manifest.assemblyId, providerId) with
  | some mid => (mid, store)
  | none =>
      (store.nextId,
        ⟨store.nextId + 1,
         store.records ++ [((manifest.assemblyId, providerId), store.nextId)]⟩)

/-- Modelled from the spec: the per-file statistics store behind
`ReportStatsDBAccessor` (module not part of the source snapshot): the stored
content identity tag per local file name. -/
structure ReportStatsStore where
  etags : List (String × String)
  deriving Repr, DecidableEq

/-- One entry of the list returned by `download_report`: local file path,
compression kind, start date, assembly id and manifest record id. -/
structure ReportDownloadEntry where
  file : String
  compression : String
  startDate : String
  assemblyId : Option String
  manifestId : Option Nat
  deriving Repr, DecidableEq

/-- The `for report in reports` loop of `download_report`: for each listed
key, read the stored ETag, download conditionally, record the new ETag, and
append the report metadata entry. -/
def downloadReportLoop (w : S3World) (customerName bucket compression dateRange : String)
    (assemblyId : Option String) (manifestId : Option Nat)
    (keys : List String) (localFiles : List String) (stats : ReportStatsStore)
    (acc : List ReportDownloadEntry) :
    Except AWSReportDownloaderFailure
      (List ReportDownloadEntry × List String × ReportStatsStore) :=
  match keys with
  | [] => .ok (acc, localFiles, stats)
  | k :: rest =>
      let localName := get_local_file_name k
      let stored := alLookup stats.etags localName
      match download_file w.getObject localFiles customerName bucket k stored with
      | .error e => .error e
      | .ok out =>
          downloadReportLoop w customerName bucket compression dateRange assemblyId
            manifestId rest out.localFiles ⟨alSet stats.etags localName out.etag⟩
            (acc ++ [⟨out.localPath, compression, dateRange, assemblyId, manifestId⟩])

/-- Embedding of `AWSReportDownloader.download_report`: fetch the manifest for
the period; when (and only when) it is not the empty manifest, upsert the
manifest tracking record; then conditionally download every listed report key
and return the per-file metadata entries. -/
def download_report (w : S3World) (localFiles : List String)
    (stats : ReportStatsStore) (store : ManifestRecordStore) (providerId : Nat)
    (customerName bucket s3Prefix reportName compression dateRange : String) :
    Except AWSReportDownloaderFailure
      (List ReportDownloadEntry × List String × ReportStatsStore × ManifestRecordStore) :=
  match _get_manifest w localFiles customerName bucket s3Prefix reportName dateRange with
  | .error e => .error e
  | .ok (manifest, localFiles1) =>
      let recOut : Option Nat × ManifestRecordStore :=
        if manifest ≠ empty_manifest then
          let pr := _process_manifest_db_record store providerId manifest
          (some pr.1, pr.2)
        else (none, store)
      let assemblyId : Option String :=
        if manifest ≠ empty_manifest then manifest.assemblyId else none
      match downloadReportLoop w customerName bucket compression dateRange assemblyId
          recOut.1 manifest.reportKeys localFiles1 stats [] with
      | .error e => .error e
      | .ok (entries, lf, st) => .ok (entries, lf, st, recOut.2)

/-- C8: a billing period whose manifest object is absent from the remote
store yields the empty manifest from `_get_manifest` without raising, and
`download_report` for that period returns an empty report list, creating no
manifest record and touching no state; a remote error other than not-found is
surfaced as the typed `AWSReportDownloaderError` failure instead of being
converted to the empty manifest. -/
theorem manifest_not_found_fails_soft (w w2 : S3World) (localFiles : List String)
    (stats : ReportStatsStore) (store : ManifestRecordStore) (providerId : Nat)
    (customerName bucket s3Prefix reportName compression dateRange : String) :
    (w.getObject (manifestKeyFor s3Prefix reportName dateRange) = .noSuchKey →
      _get_manifest w localFiles customerName bucket s3Prefix reportName dateRange =
        .ok (empty_manifest, localFiles) ∧
      download_report w localFiles stats store providerId customerName bucket
          s3Prefix reportName compression dateRange =
        .ok ([], localFiles, stats, store)) ∧
    (∀ code, w2.getObject (manifestKeyFor s3Prefix reportName dateRange) = .clientError code →
      _get_manifest w2 localFiles customerName bucket s3Prefix reportName dateRange =
        .error (.downloaderError code)) := by
  constructor
  · intro hno
    have hm : _get_manifest w localFiles customerName bucket s3Prefix reportName dateRange =
        .ok (empty_manifest, localFiles) := by
      simp [_get_manifest, download_file, hno]
    refine ⟨hm, ?_⟩
    simp [download_report, hm, downloadReportLoop, empty_manifest]
  · intro code herr
    simp [_get_manifest, download_file, herr]

/-- Witness for `manifest_not_found_fails_soft` at concrete remote stores:
one with no manifest object, one failing with an access-denied error. -/
theorem manifest_not_found_fails_soft_witness :
    (_get_manifest ⟨fun _ => .noSuchKey, fun _ => empty_manifest⟩ []
        "customer" "bucket" "pre" "rep" "20180801-20180901" =
      .ok (empty_manifest, []) ∧
      download_report ⟨fun _ => .noSuchKey, fun _ => empty_manifest⟩ [] ⟨[]⟩ ⟨1, []⟩ 7
        "customer" "bucket" "pre" "rep" "GZIP" "20180801-20180901" =
      .ok ([], [], ⟨[]⟩, ⟨1, []⟩)) ∧
    (_get_manifest ⟨fun _ => .clientError "AccessDenied", fun _ => empty_manifest⟩ []
        "customer" "bucket" "pre" "rep" "20180801-20180901" =
      .error (.downloaderError "AccessDenied")) :=
  ⟨(manifest_not_found_fails_soft ⟨fun _ => .noSuchKey, fun _ => empty_manifest⟩
      ⟨fun _ => .noSuchKey, fun _ => empty_manifest⟩ [] ⟨[]⟩ ⟨1, []⟩ 7
      "customer" "bucket" "pre" "rep" "GZIP" "20180801-20180901").1 rfl,
   (manifest_not_found_fails_soft ⟨fun _ => .noSuchKey, fun _ => empty_manifest⟩
      ⟨fun _ => .clientError "AccessDenied", fun _ => empty_manifest⟩ [] ⟨[]⟩ ⟨1, []⟩ 7
      "customer" "bucket" "pre" "rep" "GZIP" "20180801-20180901").2 "AccessDenied" rfl⟩

/-! ## Line-item content hash (`AWSReportProcessor` hash helpers) -/

/-- A Python dict from strings to strings: report rows as produced by the CSV
reader, and per-table data dicts extracted from them. -/
abbrev PyDict := List (String × String)

/-- Embedding of `AWSReportProcessor._get_line_item_hash_columns`: every
mapped line-item column (the values of the line-item column map) except
`invoice_id`, which is only populated when a bill is finalized and must not
determine row uniqueness. -/
def _get_line_item_hash_columns (lineItemColumnMap : PyDict) : List String :=
  (lineItemColumnMap.map Prod.snd).filter (fun column => column ≠ "invoice_id")

/-- Embedding of Python `':'.join(parts)`. -/
def joinColon (parts : List String) : String :=
  match parts with
  | [] => ""
  | [p] => p
  | p :: rest => p ++ ":" ++ joinColon rest

/-- Modelled from the spec: `stringify_json_data` of `masu.util.common`
(module not part of the source snapshot) coerces every value of the copied
dict to its string form; on the string-valued dicts of this embedding it is
the identity. -/
def stringify_json_data (data : PyDict) : PyDict := data

/-- Embedding of `AWSReportProcessor._create_line_item_hash_string`: stringify
the line-item data, read each hash column's value (`'None'` when absent), and
join the values with `':'` in hash-column order. -/
def _create_line_item_hash_string (hashColumns : List String) (data : PyDict) : String :=
  joinColon (hashColumns.map
    (fun column => (alLookup (stringify_json_data data) column).getD "None"))

/-- Modelled from the spec: `Hasher.hash_string_to_hex` of `masu.util.hash`
(module not part of the source snapshot) is a sha256 content digest whose only
semantically relevant property is content identity; it is embedded as the
injective identity on the hash input string. -/
def hash_string_to_hex (s : String) : String := s

theorem joinColon_cons (a : String) (l : List String) (h : l ≠ []) :
    joinColon (a :: l) = a ++ ":" ++ joinColon l := by
  cases l with
  | nil => cases h rfl
  | cons b rest => rfl

theorem joinColon_cancel (pre : List String) (x y : String) (suf : List String)
    (h : joinColon (pre ++ x :: suf) = joinColon (pre ++ y :: suf)) : x = y := by
  induction pre with
  | nil =>
      cases suf with
      | nil => simpa [joinColon] using h
      | cons s ss =>
          rw [List.nil_append, List.nil_append,
            joinColon_cons x (s :: ss) (by simp),
            joinColon_cons y (s :: ss) (by simp)] at h
          have hd := congrArg String.data h
          simp only [String.data_append] at hd
          have := List.append_cancel_right hd
          have := List.append_cancel_right this
          exact String.ext this
  | cons a pre ih =>
      rw [List.cons_append, List.cons_append,
        joinColon_cons a (pre ++ x :: suf) (by simp),
        joinColon_cons a (pre ++ y :: suf) (by simp)] at h
      have hd := congrArg String.data h
      simp only [String.data_append] at hd
      have h2 := List.append_cancel_left hd
      exact ih (String.ext h2)

/-- C5: the line-item content hash string is computed over every mapped
line-item column except `invoice_id`, joining the stringified values in hash
column order with `':'` and substituting `'None'` for absent fields; hence
two data dicts that agree outside `invoice_id` hash identically, and (for a
duplicate-free column set) changing the value read for any single mapped
non-volatile column changes the hash. -/
theorem line_item_hash_determined_by_nonvolatile_columns
    (lineItemColumnMap : PyDict) (d1 d2 : PyDict) :
    ("invoice_id" ∉ _get_line_item_hash_columns lineItemColumnMap) ∧
    ((∀ c, c ≠ "invoice_id" →
        (alLookup d1 c).getD "None" = (alLookup d2 c).getD "None") →
      hash_string_to_hex (_create_line_item_hash_string
          (_get_line_item_hash_columns lineItemColumnMap) d1) =
        hash_string_to_hex (_create_line_item_hash_string
          (_get_line_item_hash_columns lineItemColumnMap) d2)) ∧
    (∀ c, (_get_line_item_hash_columns lineItemColumnMap).Nodup →
      c ∈ _get_line_item_hash_columns lineItemColumnMap →
      (alLookup d1 c).getD "None" ≠ (alLookup d2 c).getD "None" →
      (∀ c', c' ≠ c →
        (alLookup d1 c').getD "None" = (alLookup d2 c').getD "None") →
      hash_string_to_hex (_create_line_item_hash_string
          (_get_line_item_hash_columns lineItemColumnMap) d1) ≠
        hash_string_to_hex (_create_line_item_hash_string
          (_get_line_item_hash_columns lineItemColumnMap) d2)) := by
  refine ⟨?_, ?_, ?_⟩
  · simp [_get_line_item_hash_columns]
  · intro hagree
    unfold _create_line_item_hash_string hash_string_to_hex stringify_json_data
    congr 1
    refine List.map_congr_left ?_
    intro c hc
    have hcne : c ≠ "invoice_id" := by
      simp [_get_line_item_hash_columns, List.mem_filter] at hc
      simpa using hc.2
    exact hagree c hcne
  · intro c hnodup hmem hdiff hagree
    obtain ⟨pre, suf, hsplit⟩ := List.append_of_mem hmem
    rw [hsplit] at hnodup
    rw [List.nodup_append] at hnodup
    obtain ⟨hpre, hcsuf, hdisj⟩ := hnodup
    have hcnotpre : c ∉ pre := fun hin => hdisj hin (List.mem_cons_self c suf)
    have hcnotsuf : c ∉ suf := (List.nodup_cons.mp hcsuf).1
    unfold _create_line_item_hash_string hash_string_to_hex stringify_json_data
    rw [hsplit]
    intro heq
    simp only [List.map_append, List.map_cons] at heq
    have hpreeq : pre.map (fun column => (alLookup d1 column).getD "None") =
        pre.map (fun column => (alLookup d2 column).getD "None") := by
      refine List.map_congr_left ?_
      intro c' hc'
      exact hagree c' (fun h => hcnotpre (h ▸ hc'))
    have hsufeq : suf.map (fun column => (alLookup d1 column).getD "None") =
        suf.map (fun column => (alLookup d2 column).getD "None") := by
      refine List.map_congr_left ?_
      intro c' hc'
      exact hagree c' (fun h => hcnotsuf (h ▸ hc'))
    rw [hpreeq, hsufeq] at heq
    exact hdiff (joinColon_cancel _ _ _ _ heq)

/-- Witness for `line_item_hash_determined_by_nonvolatile_columns` at a
concrete three-column map: two data dicts differing only in `invoice_id` hash
identically, and changing only `usage_amount` changes the hash. -/
theorem line_item_hash_determined_witness :
    (hash_string_to_hex (_create_line_item_hash_string
        (_get_line_item_hash_columns
          [("lineItem/InvoiceId", "invoice_id"),
           ("lineItem/UsageAmount", "usage_amount"),
           ("lineItem/UnblendedCost", "unblended_cost")])
        [("invoice_id", "inv-1"), ("usage_amount", "2"), ("unblended_cost", "0.5")]) =
      hash_string_to_hex (_create_line_item_hash_string
        (_get_line_item_hash_columns
          [("lineItem/InvoiceId", "invoice_id"),
           ("lineItem/UsageAmount", "usage_amount"),
           ("lineItem/UnblendedCost", "unblended_cost")])
        [("invoice_id", "inv-2"), ("usage_amount", "2"), ("unblended_cost", "0.5")])) ∧
    (hash_string_to_hex (_create_line_item_hash_string
        (_get_line_item_hash_columns
          [("lineItem/InvoiceId", "invoice_id"),
           ("lineItem/UsageAmount", "usage_amount"),
           ("lineItem/UnblendedCost", "unblended_cost")])
        [("invoice_id", "inv-1"), ("usage_amount", "2"), ("unblended_cost", "0.5")]) ≠
      hash_string_to_hex (_create_line_item_hash_string
        (_get_line_item_hash_columns
          [("lineItem/InvoiceId", "invoice_id"),
           ("lineItem/UsageAmount", "usage_amount"),
           ("lineItem/UnblendedCost", "unblended_cost")])
        [("invoice_id", "inv-1"), ("usage_amount", "3"), ("unblended_cost", "0.5")])) :=
  ⟨(line_item_hash_determined_by_nonvolatile_columns
      [("lineItem/InvoiceId", "invoice_id"),
       ("lineItem/UsageAmount", "usage_amount"),
       ("lineItem/UnblendedCost", "unblended_cost")]
      [("invoice_id", "inv-1"), ("usage_amount", "2"), ("unblended_cost", "0.5")]
      [("invoice_id", "inv-2"), ("usage_amount", "2"), ("unblended_cost", "0.5")]).2.1
      (by
        intro c hc
        by_cases h2 : c = "usage_amount"
        · simp [alLookup, h2]
        · by_cases h3 : c = "unblended_cost" <;> simp [alLookup, hc, h2, h3]),
   (line_item_hash_determined_by_nonvolatile_columns
      [("lineItem/InvoiceId", "invoice_id"),
       ("lineItem/UsageAmount", "usage_amount"),
       ("lineItem/UnblendedCost", "unblended_cost")]
      [("invoice_id", "inv-1"), ("usage_amount", "2"), ("unblended_cost", "0.5")]
      [("invoice_id", "inv-1"), ("usage_amount", "3"), ("unblended_cost", "0.5")]).2.2
      "usage_amount" (by decide) (by decide) (by decide)
      (by
        intro c' hc'
        by_cases h1 : c' = "invoice_id"
        · simp [alLookup, h1]
        · by_cases h3 : c' = "unblended_cost" <;> simp [alLookup, hc', h1, h3])⟩

/-! ## AWS row transformer (`AWSReportProcessor`) -/

/-- The declarative column maps (report column name → database column name)
for the tables the AWS processor writes.  In the repository this mapping is
data loaded by `ReportingCommonDBAccessor` (module not part of the source
snapshot); the processor treats it as an opaque per-table dict, and so does
this embedding. -/
structure ColumnMaps where
  bill : PyDict
  product : PyDict
  pricing : PyDict
  reservation : PyDict
  lineItem : PyDict
  deriving Repr, DecidableEq

/-- The `product/memory` special case of `_get_data_for_table`: a memory
value may carry a unit (`"1 Gb"` vs `"1"`), so it is split into
`product/memory` and `product/memory_unit` on the shared row dict (an absent
unit is recorded as Python `None`, embedded as the string `"None"`).  A value
splitting into three or more parts raises in Python; the embedding aborts
with `none` there. -/
def adjustMemoryRow (row : PyDict) : Option PyDict :=
  match alLookup row "product/memory" with
  | none => some row
  | some v =>
      match pySplit v " " with
      | [m] => some (alSet (alSet row "product/memory" m) "product/memory_unit" "None")
      | [m, u] => some (alSet (alSet row "product/memory" m) "product/memory_unit" u)
      | _ => none

/-- Embedding of `AWSReportProcessor._get_data_for_table`: apply the memory
split to the (shared, mutated) row, then extract the row entries whose keys
appear in the table's column map, renamed to their database column names.
Returns the adjusted row together with the extracted data. -/
def _get_data_for_table (row : PyDict) (columnMap : PyDict) : Option (PyDict × PyDict) :=
  match adjustMemoryRow row with
  | none => none
  | some row' =>
      some (row',
        (row'.filter (fun kv => (alLookup columnMap kv.1).isSome)).map
          (fun kv => ((alLookup columnMap kv.1).getD "", kv.2)))

/-- Python substring test `pat in s` (for the nonempty patterns used here). -/
def strContains (s pat : String) : Bool := (pySplit s pat).length > 1

/-- Rendering of one tag entry for the tag blob. -/
def jsonPairString (kv : String × String) : String :=
  "\"" ++ kv.1 ++ "\": \"" ++ kv.2 ++ "\""

/-- Python `', '.join(parts)`. -/
def joinCommaSep (parts : List String) : String :=
  match parts with
  | [] => ""
  | [p] => p
  | p :: rest => p ++ ", " ++ joinCommaSep rest

/-- Modelled from the spec: `json.dumps` on a string-valued dict, used only to
fold the tag columns into one opaque blob; embedded as a canonical rendering
without escaping. -/
def jsonDumps (entries : PyDict) : String :=
  "\x7b" ++ joinCommaSep (entries.map jsonPairString) ++ "\x7d"

/-- Embedding of `AWSReportProcessor._process_tags`: the JSON blob of the
row entries whose key contains `resourceTags` and whose value is truthy. -/
def _process_tags (row : PyDict) : String :=
  jsonDumps (row.filter (fun kv => strContains kv.1 "resourceTags" && kv.2 != ""))

/-- Embedding of `_get_cost_entry_time_interval`: split the combined interval
into start and end; Python unpacking raises unless there are exactly two
parts, which the embedding renders as `none`. -/
def _get_cost_entry_time_interval (interval : String) : Option (String × String) :=
  match pySplit interval "/" with
  | [start, stop] => some (start, stop)
  | _ => none

/-- Python `set(data.values()) == {''}`: the extracted dict is nonempty and
every value is the empty string (the empty-row skip test of the dimension
creators). -/
def allValuesEmpty (data : PyDict) : Bool :=
  !data.isEmpty && data.all (fun kv => kv.2 == "")

/-- The Python value written for a foreign-key column: the id's decimal
string, or `"None"` embedding Python `None`. -/
def idValue (i : Option Nat) : String :=
  match i with
  | some n => toString n
  | none => "None"

/-- A bill business key as read from a row: (bill type, payer account id,
billing period start); a component is `none` when its column is absent. -/
abbrev BillKey := Option String × Option String × Option String

/-- A product business key: (sku, product name, region). -/
abbrev ProductKey := Option String × Option String × Option String

/-- The durable database slice the AWS processor writes: the dimension tables
(per row: id, business key as the seeding accessors report it, stored data),
the durable line-item table, the per-run temp (staging) line-item table, and
the id sequence dimension ids are allocated from. -/
structure AwsDB where
  nextId : Nat
  bills : List (Nat × BillKey × PyDict)
  costEntries : List (Nat × (Nat × String) × String)
  products : List (Nat × ProductKey × PyDict)
  pricing : List (Nat × String × PyDict)
  reservations : List (Nat × Option String × PyDict)
  lineItems : List PyDict
  tempLineItems : List PyDict
  deriving Repr, DecidableEq

/-- Modelled from the spec: `get_cost_entry_bills` of the AWS accessor
(module not part of the source snapshot) — the persisted bill business key →
id map a run is seeded with. -/
def billMapOf (db : AwsDB) : List (BillKey × Nat) :=
  db.bills.map (fun r => (r.2.1, r.1))

/-- Modelled from the spec: `get_cost_entries` — (bill id, interval start) →
id for every persisted cost entry. -/
def costEntryMapOf (db : AwsDB) : List ((Nat × String) × Nat) :=
  db.costEntries.map (fun r => (r.2.1, r.1))

/-- Modelled from the spec: `get_products` — (sku, product name, region) →
id for every persisted product. -/
def productMapOf (db : AwsDB) : List (ProductKey × Nat) :=
  db.products.map (fun r => (r.2.1, r.1))

/-- Modelled from the spec: `get_pricing` — `'{term}-{unit}'` → id for every
persisted pricing row. -/
def pricingMapOf (db : AwsDB) : List (String × Nat) :=
  db.pricing.map (fun r => (r.2.1, r.1))

/-- Modelled from the spec: `get_reservations` — reservation ARN → id for
every persisted reservation. -/
def reservationMapOf (db : AwsDB) : List (Option String × Nat) :=
  db.reservations.map (fun r => (r.2.1, r.1))

/-- Modelled from the spec: `insert_on_conflict_do_nothing` on the bill table
(AWS accessor module not part of the source snapshot): create the row if the
business key is absent, otherwise keep the existing row; return the id. -/
def insertBillRow (db : AwsDB) (key : BillKey) (data : PyDict) : Nat × AwsDB :=
  match alLookup (billMapOf db) key with
  | some bid => (bid, db)
  | none =>
      (db.nextId,
        { db with nextId := db.nextId + 1, bills := db.bills ++ [(db.nextId, key, data)] })

/-- Modelled from the spec: `insert_on_conflict_do_nothing` on the cost entry
table, conflict key (bill id, interval start). -/
def insertCostEntryRow (db : AwsDB) (billId : Nat) (start stop : String) : Nat × AwsDB :=
  match alLookup (costEntryMapOf db) (billId, start) with
  | some cid => (cid, db)
  | none =>
      (db.nextId,
        { db with
          nextId := db.nextId + 1,
          costEntries := db.costEntries ++ [(db.nextId, (billId, start), stop)] })

/-- Modelled from the spec: `insert_on_conflict_do_nothing` on the product
table with conflict columns (sku, product_name, region). -/
def insertProductRow (db : AwsDB) (key : ProductKey) (data : PyDict) : Nat × AwsDB :=
  match alLookup (productMapOf db) key with
  | some pid => (pid, db)
  | none =>
      (db.nextId,
        { db with nextId := db.nextId + 1, products := db.products ++ [(db.nextId, key, data)] })

/-- Modelled from the spec: `insert_on_conflict_do_nothing` on the pricing
table, keyed by the `'{term}-{unit}'` business key. -/
def insertPricingRow (db : AwsDB) (key : String) (data : PyDict) : Nat × AwsDB :=
  match alLookup (pricingMapOf db) key with
  | some pid => (pid, db)
  | none =>
      (db.nextId,
        { db with nextId := db.nextId + 1, pricing := db.pricing ++ [(db.nextId, key, data)] })

/-- Modelled from the spec: `insert_on_conflict_do_nothing` on the reservation
table with conflict column reservation_arn. -/
def insertReservationRow (db : AwsDB) (arn : Option String) (data : PyDict) : Nat × AwsDB :=
  match alLookup (reservationMapOf db) arn with
  | some rid => (rid, db)
  | none =>
      (db.nextId,
        { db with
          nextId := db.nextId + 1,
          reservations := db.reservations ++ [(db.nextId, arn, data)] })

/-- Modelled from the spec: `insert_on_conflict_do_update` on the reservation
table with conflict column reservation_arn, setting every column: overwrite
the attributes of the existing row in place (keeping its id), or insert. -/
def upsertReservationRow (db : AwsDB) (arn : Option String) (data : PyDict) : Nat × AwsDB :=
  match alLookup (reservationMapOf db) arn with
  | some rid =>
      (rid,
        { db with reservations :=
            db.reservations.map (fun r => if r.2.1 = arn then (r.1, arn, data) else r) })
  | none =>
      (db.nextId,
        { db with
          nextId := db.nextId + 1,
          reservations := db.reservations ++ [(db.nextId, arn, data)] })

/-- Modelled from the spec: `clean_data` of the report DB accessor base
(module not part of the source snapshot) canonicalizes value types per the
table schema; on the already-canonical string values of this embedding it is
the identity. -/
def clean_data (data : PyDict) : PyDict := data

/-- The in-memory state of one `AWSReportProcessor` run: the database handle,
the seeded persisted-identifier maps, the in-run `ProcessedReport` containers,
the per-file `bill_id` of the `process` loop, and a trace of every line-item
data dict built during the run (instrumentation for the theorems; the
processor itself appends the same dicts to `prLineItems`). -/
structure ProcState where
  db : AwsDB
  existingBillMap : List (BillKey × Nat)
  existingCostEntryMap : List ((Nat × String) × Nat)
  existingProductMap : List (ProductKey × Nat)
  existingPricingMap : List (String × Nat)
  existingReservationMap : List (Option String × Nat)
  prBills : List (BillKey × Nat)
  prCostEntries : List ((Nat × String) × Nat)
  prProducts : List (ProductKey × Nat)
  prPricing : List (String × Nat)
  prReservations : List (Option String × Nat)
  prLineItems : List PyDict
  billId : Option Nat
  trace : List PyDict
  deriving Repr, DecidableEq

/-- The bill business key `_create_cost_entry_bill` reads from a row. -/
def billKeyOf (row : PyDict) : BillKey :=
  (alLookup row "bill/BillType", alLookup row "bill/PayerAccountId",
   alLookup row "bill/BillingPeriodStartDate")

/-- Embedding of `AWSReportProcessor._create_cost_entry_bill`: resolve the
bill through the in-run cache, then the seeded map, and only on a double miss
extract the bill data (plus `provider_id`) and insert; cache the id. -/
def _create_cost_entry_bill (cm : ColumnMaps) (providerId : Nat) (row : PyDict)
    (st : ProcState) : Option (Nat × PyDict × ProcState) :=
  let key := billKeyOf row
  match alLookup st.prBills key with
  | some bid => some (bid, row, st)
  | none =>
    match alLookup st.existingBillMap key with
    | some bid => some (bid, row, st)
    | none =>
      match _get_data_for_table row cm.bill with
      | none => none
      | some (row', data0) =>
          let data := alSet data0 "provider_id" (toString providerId)
          let ins := insertBillRow st.db key data
          some (ins.1, row',
            { st with db := ins.2, prBills := alSet st.prBills key ins.1 })

/-- Embedding of `AWSReportProcessor._create_cost_entry`: split the row's
time interval, resolve the cost entry keyed on (bill id, interval start)
through cache then seeded map, and insert on a double miss; cache the id. -/
def _create_cost_entry (row : PyDict) (billId : Nat) (st : ProcState) :
    Option (Nat × ProcState) :=
  match alLookup row "identity/TimeInterval" with
  | none => none
  | some interval =>
    match _get_cost_entry_time_interval interval with
    | none => none
    | some (start, stop) =>
      let key := (billId, start)
      match alLookup st.prCostEntries key with
      | some cid => some (cid, st)
      | none =>
        match alLookup st.existingCostEntryMap key with
        | some cid => some (cid, st)
        | none =>
          let ins := insertCostEntryRow st.db billId start stop
          some (ins.1,
            { st with db := ins.2, prCostEntries := alSet st.prCostEntries key ins.1 })

/-- The product business key `_create_cost_entry_product` reads from a row. -/
def productKeyOf (row : PyDict) : ProductKey :=
  (alLookup row "product/sku", alLookup row "product/ProductName",
   alLookup row "product/region")

/-- Embedding of `AWSReportProcessor._create_cost_entry_product`: resolve via
cache then seeded map; on a double miss extract the product data, skip (no
identifier) when every extracted value is empty, otherwise insert and cache. -/
def _create_cost_entry_product (cm : ColumnMaps) (row : PyDict) (st : ProcState) :
    Option (Option Nat × PyDict × ProcState) :=
  let key := productKeyOf row
  match alLookup st.prProducts key with
  | some pid => some (some pid, row, st)
  | none =>
    match alLookup st.existingProductMap key with
    | some pid => some (some pid, row, st)
    | none =>
      match _get_data_for_table row cm.product with
      | none => none
      | some (row', data) =>
          if allValuesEmpty data then some (none, row', st)
          else
            let ins := insertProductRow st.db key data
            some (some ins.1, row',
              { st with db := ins.2, prProducts := alSet st.prProducts key ins.1 })

/-- The `'{term}-{unit}'` pricing key, with `'None'` for a missing or falsy
term or unit, as `_create_cost_entry_pricing` builds it. -/
def pricingKeyOf (row : PyDict) : String :=
  let term := match alLookup row "pricing/term" with
    | some v => if v ≠ "" then v else "None"
    | none => "None"
  let unit := match alLookup row "pricing/unit" with
    | some v => if v ≠ "" then v else "None"
    | none => "None"
  term ++ "-" ++ unit

/-- Embedding of `AWSReportProcessor._create_cost_entry_pricing`: resolve via
cache then seeded map on the `'{term}-{unit}'` key; on a double miss extract
the pricing data, skip when every extracted value is empty, otherwise insert
and cache. -/
def _create_cost_entry_pricing (cm : ColumnMaps) (row : PyDict) (st : ProcState) :
    Option (Option Nat × PyDict × ProcState) :=
  let key := pricingKeyOf row
  match alLookup st.prPricing key with
  | some pid => some (some pid, row, st)
  | none =>
    match alLookup st.existingPricingMap key with
    | some pid => some (some pid, row, st)
    | none =>
      match _get_data_for_table row cm.pricing with
      | none => none
      | some (row', data) =>
          if allValuesEmpty data then some (none, row', st)
          else
            let ins := insertPricingRow st.db key data
            some (some ins.1, row',
              { st with db := ins.2, prPricing := alSet st.prPricing key ins.1 })

/-- Embedding of `AWSReportProcessor._create_cost_entry_reservation`: read the
ARN and the lower-cased line-item type; a cached ARN short-circuits only for
non-`rifee` rows; otherwise extract the reservation data, skip when every
extracted value is empty, and insert — with conflict-update (overwriting all
attributes) for `rifee` rows, conflict-nothing otherwise; cache the id. -/
def _create_cost_entry_reservation (cm : ColumnMaps) (row : PyDict) (st : ProcState) :
    Option (Option Nat × PyDict × ProcState) :=
  let arn := alLookup row "reservation/ReservationARN"
  let lineItemType := pyLower ((alLookup row "lineItem/LineItemType").getD "")
  let cached : Option Nat :=
    match alLookup st.prReservations arn with
    | some rid => some rid
    | none => alLookup st.existingReservationMap arn
  if cached = none ∨ lineItemType = "rifee" then
    match _get_data_for_table row cm.reservation with
    | none => none
    | some (row', data) =>
        if allValuesEmpty data then some (none, row', st)
        else
          let ins :=
            if lineItemType = "rifee" then upsertReservationRow st.db arn data
            else insertReservationRow st.db arn data
          some (some ins.1, row',
            { st with db := ins.2, prReservations := alSet st.prReservations arn ins.1 })
  else some (cached, row, st)

/-- Embedding of `AWSReportProcessor._create_cost_entry_line_item`: extract
the mapped line-item fields, canonicalize, fold the tag columns into the tag
blob, attach the five resolved foreign keys, compute the content hash over the
hash columns, and append the record to the current batch (and to the trace). -/
def _create_cost_entry_line_item (cm : ColumnMaps) (hashColumns : List String)
    (row : PyDict) (costEntryId billId : Nat)
    (productId pricingId reservationId : Option Nat) (st : ProcState) :
    Option (PyDict × ProcState) :=
  match _get_data_for_table row cm.lineItem with
  | none => none
  | some (row', data0) =>
      let data1 := clean_data data0
      let data2 := alSet data1 "tags" (_process_tags row')
      let data3 := alSet data2 "cost_entry_id" (idValue (some costEntryId))
      let data4 := alSet data3 "cost_entry_bill_id" (idValue (some billId))
      let data5 := alSet data4 "cost_entry_product_id" (idValue productId)
      let data6 := alSet data5 "cost_entry_pricing_id" (idValue pricingId)
      let data7 := alSet data6 "cost_entry_reservation_id" (idValue reservationId)
      let data8 := alSet data7 "hash"
        (hash_string_to_hex (_create_line_item_hash_string hashColumns data7))
      some (row',
        { st with prLineItems := st.prLineItems ++ [data8], trace := st.trace ++ [data8] })

/-- Embedding of the `line_item_conflict_columns` property: the dedup key of
the staged merge, (content hash, cost-entry reference). -/
def line_item_conflict_columns : List String := ["hash", "cost_entry_id"]

/-- Rows agree on the conflict columns when their values match column-wise. -/
def conflictKeyMatches (conflictColumns : List String) (r1 r2 : PyDict) : Bool :=
  conflictColumns.all (fun c => alLookup r1 c == alLookup r2 c)

/-- One row of the `INSERT ... SELECT ... ON CONFLICT (...) DO UPDATE SET`
merge of `merge_temp_table`: update the first durable row agreeing with the
incoming row on the conflict columns — every column is set from the incoming
row — or insert the incoming row at the end. -/
def upsertRow (conflictColumns : List String) (table : List PyDict) (incoming : PyDict) :
    List PyDict :=
  match table with
  | [] => [incoming]
  | r :: rest =>
      if conflictKeyMatches conflictColumns r incoming then incoming :: rest
      else r :: upsertRow conflictColumns rest incoming

/-- Embedding of `merge_temp_table` (the in-source OCP accessor merge, called
by the AWS processor with conflict columns (hash, cost_entry_id)): fold every
staged row into the durable line-item table under the conflict-update rule,
then clear the staging table. -/
def merge_temp_table (conflictColumns : List String) (db : AwsDB) : AwsDB :=
  { db with
    lineItems := db.tempLineItems.foldl (upsertRow conflictColumns) db.lineItems,
    tempLineItems := [] }

/-- Embedding of `AWSReportProcessor._save_to_db`: bulk-load the current batch
of processed line items into the temp (staging) table. -/
def _save_to_db (st : ProcState) : ProcState :=
  { st with db := { st.db with tempLineItems := st.db.tempLineItems ++ st.prLineItems } }

/-- Embedding of `AWSReportProcessor._update_mappings`: fold the processed
containers into the seeded maps and clear the batch containers (the bill
container is cleared but the bill map is not refreshed, as in the source). -/
def _update_mappings (st : ProcState) : ProcState :=
  { st with
    existingCostEntryMap := alUpdate st.existingCostEntryMap st.prCostEntries,
    existingProductMap := alUpdate st.existingProductMap st.prProducts,
    existingPricingMap := alUpdate st.existingPricingMap st.prPricing,
    existingReservationMap := alUpdate st.existingReservationMap st.prReservations,
    prBills := [], prCostEntries := [], prProducts := [], prPricing := [],
    prReservations := [], prLineItems := [] }

/-- The tail of one `process`-loop iteration, after the bill id is known:
cost entry, product, pricing, reservation, line item, and the
flush-merge-refresh block once the batch reaches the batch size. -/
def processRowRest (cm : ColumnMaps) (hashColumns : List String)
    (batchSize : Nat) (row1 : PyDict) (billId : Nat) (stb : ProcState) : Option ProcState :=
  let st1 := { stb with billId := some billId }
  match _create_cost_entry row1 billId st1 with
  | none => none
  | some (costEntryId, st2) =>
    match _create_cost_entry_product cm row1 st2 with
    | none => none
    | some (productId, row2, st3) =>
      match _create_cost_entry_pricing cm row2 st3 with
      | none => none
      | some (pricingId, row3, st4) =>
        match _create_cost_entry_reservation cm row3 st4 with
        | none => none
        | some (reservationId, row4, st5) =>
          match _create_cost_entry_line_item cm hashColumns row4 costEntryId billId
              productId pricingId reservationId st5 with
          | none => none
          | some (_, st6) =>
            if st6.prLineItems.length ≥ batchSize then
              let st7 := _save_to_db st6
              let st8 := { st7 with
                db := merge_temp_table line_item_conflict_columns st7.db }
              some (_update_mappings st8)
            else some st6

/-- One iteration of the `process` loop of `AWSReportProcessor.process`:
resolve the bill (from the row only while `bill_id` is unset, i.e. for the
first row), then run the rest of the per-row pipeline. -/
def processRow (cm : ColumnMaps) (providerId : Nat) (hashColumns : List String)
    (batchSize : Nat) (row : PyDict) (st : ProcState) : Option ProcState :=
  match (match st.billId with
         | some bid => some (bid, row, st)
         | none => _create_cost_entry_bill cm providerId row st) with
  | none => none
  | some (billId, row1, stb) =>
      processRowRest cm hashColumns batchSize row1 billId stb

/-- The `for row in reader` fold of `AWSReportProcessor.process`. -/
def processRows (cm : ColumnMaps) (providerId : Nat) (hashColumns : List String)
    (batchSize : Nat) (rows : List PyDict) (st : ProcState) : Option ProcState :=
  match rows with
  | [] => some st
  | row :: rest =>
      match processRow cm providerId hashColumns batchSize row st with
      | none => none
      | some st' => processRows cm providerId hashColumns batchSize rest st'

/-- Embedding of `AWSReportProcessor.process`: run the per-row pipeline over
the file's rows, then flush and merge the final partial batch if nonempty. -/
def process (cm : ColumnMaps) (providerId : Nat) (batchSize : Nat)
    (rows : List PyDict) (st : ProcState) : Option ProcState :=
  match processRows cm providerId (_get_line_item_hash_columns cm.lineItem)
      batchSize rows st with
  | none => none
  | some st' =>
      if st'.prLineItems.isEmpty then some st'
      else
        let st7 := _save_to_db st'
        some { st7 with db := merge_temp_table line_item_conflict_columns st7.db }

/-- Modelled from the spec: the seeding of the per-run persisted-identifier
maps in `AWSReportProcessor.__init__` (`get_cost_entry_bills`,
`get_cost_entries`, `get_products`, `get_pricing`, `get_reservations` of the
AWS accessor, module not part of the source snapshot): bulk-load every known
business key → id binding; start with empty batch containers, no bill id, and
a freshly created temp table. -/
def initProcState (db : AwsDB) : ProcState :=
  { db := { db with tempLineItems := [] },
    existingBillMap := billMapOf db,
    existingCostEntryMap := costEntryMapOf db,
    existingProductMap := productMapOf db,
    existingPricingMap := pricingMapOf db,
    existingReservationMap := reservationMapOf db,
    prBills := [], prCostEntries := [], prProducts := [], prPricing := [],
    prReservations := [], prLineItems := [], billId := none, trace := [] }

/-- The empty durable store. -/
def emptyAwsDB : AwsDB := ⟨0, [], [], [], [], [], [], []⟩

/-- Modelled from the spec: a representative slice of the column map data
(loaded at runtime by `ReportingCommonDBAccessor`, not part of the source
snapshot), following the provider's namespaced column convention. -/
def sampleColumnMaps : ColumnMaps :=
  { bill :=
      [("bill/BillType", "bill_type"),
       ("bill/PayerAccountId", "payer_account_id"),
       ("bill/BillingPeriodStartDate", "billing_period_start"),
       ("bill/BillingPeriodEndDate", "billing_period_end")],
    product :=
      [("product/ProductName", "product_name"),
       ("product/sku", "sku"),
       ("product/region", "region")],
    pricing :=
      [("pricing/term", "term"),
       ("pricing/unit", "unit")],
    reservation :=
      [("reservation/ReservationARN", "reservation_arn"),
       ("reservation/NumberOfReservations", "number_of_reservations")],
    lineItem :=
      [("lineItem/InvoiceId", "invoice_id"),
       ("lineItem/LineItemType", "line_item_type"),
       ("lineItem/UsageStart", "usage_start"),
       ("lineItem/UsageAmount", "usage_amount"),
       ("lineItem/CurrencyCode", "currency_code"),
       ("lineItem/UnblendedCost", "unblended_cost")] }

/-- A representative report row. -/
def sampleRow1 : PyDict :=
  [("identity/TimeInterval", "2018-08-01T00:00:00Z/2018-08-01T01:00:00Z"),
   ("bill/BillType", "Anniversary"),
   ("bill/PayerAccountId", "111111111111"),
   ("bill/BillingPeriodStartDate", "2018-08-01T00:00:00Z"),
   ("lineItem/InvoiceId", ""),
   ("lineItem/LineItemType", "Usage"),
   ("lineItem/UsageAmount", "1"),
   ("lineItem/UnblendedCost", "0.1"),
   ("product/sku", "SKU1"),
   ("product/ProductName", "EC2"),
   ("product/region", "us-east-1"),
   ("pricing/term", "OnDemand"),
   ("pricing/unit", "Hrs"),
   ("reservation/ReservationARN", ""),
   ("resourceTags/user:app", "web")]

/-- A second row of the same file carrying a different bill business key
(different payer account) and a different usage amount. -/
def sampleRow2 : PyDict :=
  [("identity/TimeInterval", "2018-08-01T00:00:00Z/2018-08-01T01:00:00Z"),
   ("bill/BillType", "Anniversary"),
   ("bill/PayerAccountId", "222222222222"),
   ("bill/BillingPeriodStartDate", "2018-08-01T00:00:00Z"),
   ("lineItem/InvoiceId", ""),
   ("lineItem/LineItemType", "Usage"),
   ("lineItem/UsageAmount", "2"),
   ("lineItem/UnblendedCost", "0.1"),
   ("product/sku", "SKU1"),
   ("product/ProductName", "EC2"),
   ("product/region", "us-east-1"),
   ("pricing/term", "OnDemand"),
   ("pricing/unit", "Hrs"),
   ("reservation/ReservationARN", ""),
   ("resourceTags/user:app", "web")]

/-- C7 counterexample: in `process`, the bill is created only while `bill_id`
is unset — i.e. from the first row — so two rows of one file carrying
different bill business keys are both attached to the first row's bill (id 0
here), refuting the claim that each row's own business key determines its
bill. -/
theorem process_attaches_all_rows_to_first_bill :
    billKeyOf sampleRow1 ≠ billKeyOf sampleRow2 ∧
    (process sampleColumnMaps 7 1000 [sampleRow1, sampleRow2]
        (initProcState emptyAwsDB)).map
      (fun st => st.trace.map (fun d => alLookup d "cost_entry_bill_id")) =
      some [some "0", some "0"] := by
  constructor
  · decide
  · rfl

/-- A finalizing (`RIFee`) row whose extracted reservation fields are all
present but empty. -/
def rifeeEmptyRow : PyDict :=
  [("identity/TimeInterval", "2018-08-01T00:00:00Z/2018-08-01T01:00:00Z"),
   ("lineItem/LineItemType", "RIFee"),
   ("reservation/ReservationARN", ""),
   ("reservation/NumberOfReservations", "")]

/-- A run state whose database and seeded map already hold a reservation for
the empty-string ARN. -/
def reservationSeededState : ProcState :=
  initProcState ⟨6, [], [], [], [], [(5, some "", [("reservation_arn", "old")])], [], []⟩

/-- C6 counterexample: a row of the finalizing line-item type (`RIFee`,
compared case-insensitively) whose extracted reservation fields are all empty
performs no upsert at all — `_create_cost_entry_reservation` returns no
identifier and leaves the state untouched, even though the ARN is present in
the pre-seeded map — refuting the claim that every finalizing row
upsert-overwrites the reservation. -/
theorem reservation_rifee_empty_row_no_upsert :
    pyLower ((alLookup rifeeEmptyRow "lineItem/LineItemType").getD "") = "rifee" ∧
    alLookup reservationSeededState.existingReservationMap
      (alLookup rifeeEmptyRow "reservation/ReservationARN") = some 5 ∧
    _create_cost_entry_reservation sampleColumnMaps rifeeEmptyRow reservationSeededState =
      some (none, rifeeEmptyRow, reservationSeededState) :=
  ⟨rfl, rfl, rfl⟩

/-- C6 (amended): a finalizing (`rifee`, case-insensitive) row whose
extracted reservation data is not all-empty always performs the
conflict-update insert keyed on `reservation_arn` — overwriting every
reservation attribute from the row — regardless of the in-run cache and the
pre-seeded map; a row of all-empty extracted data produces no identifier and
no write; a non-finalizing row whose ARN is cached (in-run or pre-seeded)
returns the cached identifier and issues no write. -/
theorem reservation_finalizing_upsert (cm : ColumnMaps) (row : PyDict) (st : ProcState) :
    (∀ row' data, pyLower ((alLookup row "lineItem/LineItemType").getD "") = "rifee" →
      _get_data_for_table row cm.reservation = some (row', data) →
      allValuesEmpty data = false →
      _create_cost_entry_reservation cm row st =
        some (some (upsertReservationRow st.db (alLookup row "reservation/ReservationARN") data).1,
          row',
          { st with
            db := (upsertReservationRow st.db (alLookup row "reservation/ReservationARN") data).2,
            prReservations := alSet st.prReservations
              (alLookup row "reservation/ReservationARN")
              (upsertReservationRow st.db (alLookup row "reservation/ReservationARN") data).1 })) ∧
    (∀ row' data, _get_data_for_table row cm.reservation = some (row', data) →
      allValuesEmpty data = true →
      (alLookup st.prReservations (alLookup row "reservation/ReservationARN") = none ∧
        alLookup st.existingReservationMap (alLookup row "reservation/ReservationARN") = none) ∨
        pyLower ((alLookup row "lineItem/LineItemType").getD "") = "rifee" →
      _create_cost_entry_reservation cm row st = some (none, row', st)) ∧
    (∀ rid, pyLower ((alLookup row "lineItem/LineItemType").getD "") ≠ "rifee" →
      (alLookup st.prReservations (alLookup row "reservation/ReservationARN") = some rid ∨
        (alLookup st.prReservations (alLookup row "reservation/ReservationARN") = none ∧
         alLookup st.existingReservationMap (alLookup row "reservation/ReservationARN") = some rid)) →
      _create_cost_entry_reservation cm row st = some (some rid, row, st)) := by
  refine ⟨?_, ?_, ?_⟩
  · intro row' data htype hdata hempty
    simp [_create_cost_entry_reservation, htype, hdata, hempty]
  · intro row' data hdata hempty hcase
    rcases hcase with ⟨h1, h2⟩ | htype
    · simp [_create_cost_entry_reservation, h1, h2, hdata, hempty]
    · simp [_create_cost_entry_reservation, htype, hdata, hempty]
  · intro rid htype hcached
    rcases hcached with h | ⟨h1, h2⟩
    · simp [_create_cost_entry_reservation, h, htype]
    · simp [_create_cost_entry_reservation, h1, h2, htype]

/-- A finalizing row with a populated reservation. -/
def rifeeRow : PyDict :=
  [("lineItem/LineItemType", "RIFee"),
   ("reservation/ReservationARN", "arn:aws:ec2:ri/r-123"),
   ("reservation/NumberOfReservations", "2")]

/-- A non-finalizing row naming the same ARN. -/
def usageCachedRow : PyDict :=
  [("lineItem/LineItemType", "Usage"),
   ("reservation/ReservationARN", "arn:aws:ec2:ri/r-123")]

/-- A run state whose database (and hence seeded map) already holds that ARN
with old attribute values under id 5. -/
def reservationSeededState2 : ProcState :=
  initProcState ⟨6, [], [], [], [],
    [(5, some "arn:aws:ec2:ri/r-123",
      [("reservation_arn", "arn:aws:ec2:ri/r-123"), ("number_of_reservations", "1")])],
    [], []⟩

/-- Witness for `reservation_finalizing_upsert`: the finalizing row overwrites
the pre-seeded ARN's attributes in place (keeping id 5) although it is cached,
and the non-finalizing row over the same cached ARN returns id 5 with no
write. -/
theorem reservation_finalizing_upsert_witness :
    (_create_cost_entry_reservation sampleColumnMaps rifeeRow reservationSeededState2 =
      some (some (upsertReservationRow reservationSeededState2.db
          (alLookup rifeeRow "reservation/ReservationARN")
          [("reservation_arn", "arn:aws:ec2:ri/r-123"),
           ("number_of_reservations", "2")]).1,
        rifeeRow,
        { reservationSeededState2 with
          db := (upsertReservationRow reservationSeededState2.db
            (alLookup rifeeRow "reservation/ReservationARN")
            [("reservation_arn", "arn:aws:ec2:ri/r-123"),
             ("number_of_reservations", "2")]).2,
          prReservations := alSet reservationSeededState2.prReservations
            (alLookup rifeeRow "reservation/ReservationARN")
            (upsertReservationRow reservationSeededState2.db
              (alLookup rifeeRow "reservation/ReservationARN")
              [("reservation_arn", "arn:aws:ec2:ri/r-123"),
               ("number_of_reservations", "2")]).1 })) ∧
    (_create_cost_entry_reservation sampleColumnMaps usageCachedRow reservationSeededState2 =
      some (some 5, usageCachedRow, reservationSeededState2)) :=
  ⟨(reservation_finalizing_upsert sampleColumnMaps rifeeRow reservationSeededState2).1
      rifeeRow
      [("reservation_arn", "arn:aws:ec2:ri/r-123"), ("number_of_reservations", "2")]
      rfl rfl rfl,
   (reservation_finalizing_upsert sampleColumnMaps usageCachedRow reservationSeededState2).2.2
      5 (by decide) (Or.inr ⟨rfl, rfl⟩)⟩

/-! ## Association-list lemmas used by the run-level theorems -/

theorem alLookup_alSet_self {α β : Type} [DecidableEq α] (m : List (α × β)) (k : α) (v : β) :
    alLookup (alSet m k v) k = some v := by
  induction m with
  | nil => simp [alSet, alLookup]
  | cons kv rest ih =>
      obtain ⟨k₀, v₀⟩ := kv
      by_cases h : k = k₀ <;> simp [alSet, alLookup, h, ih]

theorem alLookup_alSet_ne {α β : Type} [DecidableEq α] (m : List (α × β)) (k k' : α) (v : β)
    (h : k' ≠ k) : alLookup (alSet m k v) k' = alLookup m k' := by
  induction m with
  | nil => simp [alSet, alLookup, h]
  | cons kv rest ih =>
      obtain ⟨k₀, v₀⟩ := kv
      by_cases h0 : k = k₀
      · subst h0; simp [alSet, alLookup, h]
      · by_cases h1 : k' = k₀ <;> simp [alSet, alLookup, h0, h1, ih]

theorem alLookup_append {α β : Type} [DecidableEq α] (m1 m2 : List (α × β)) (k : α) :
    alLookup (m1 ++ m2) k =
      match alLookup m1 k with
      | some v => some v
      | none => alLookup m2 k := by
  induction m1 with
  | nil => simp [alLookup]
  | cons kv rest ih =>
      obtain ⟨k₀, v₀⟩ := kv
      by_cases h : k = k₀ <;> simp [alLookup, h, ih]

theorem alLookup_eq_none {α β : Type} [DecidableEq α] (m : List (α × β)) (k : α)
    (h : k ∉ m.map Prod.fst) : alLookup m k = none := by
  induction m with
  | nil => simp [alLookup]
  | cons kv rest ih =>
      obtain ⟨k₀, v₀⟩ := kv
      simp only [List.map_cons, List.mem_cons] at h
      push_neg at h
      simp [alLookup, h.1, ih h.2]

theorem alSet_keys {α β : Type} [DecidableEq α] (m : List (α × β)) (k : α) (v : β) :
    (alSet m k v).map Prod.fst =
      if k ∈ m.map Prod.fst then m.map Prod.fst else m.map Prod.fst ++ [k] := by
  induction m with
  | nil => simp [alSet]
  | cons kv rest ih =>
      obtain ⟨k₀, v₀⟩ := kv
      by_cases h : k = k₀
      · subst h; simp [alSet]
      · by_cases hm : k ∈ rest.map Prod.fst <;>
          simp [alSet, h, hm, ih, Ne.symm h]

theorem alSet_keys_nodup {α β : Type} [DecidableEq α] (m : List (α × β)) (k : α) (v : β)
    (h : (m.map Prod.fst).Nodup) : ((alSet m k v).map Prod.fst).Nodup := by
  rw [alSet_keys]
  by_cases hm : k ∈ m.map Prod.fst
  · simpa [hm] using h
  · simp [hm, List.nodup_append, h]

/-- The two-step cache lookup of the source's "resolve or create" pattern:
the in-run container first, then the seeded persisted-identifier map. -/
def lookup2 {α : Type} [DecidableEq α] (pr ex : List (α × Nat)) (k : α) : Option Nat :=
  match alLookup pr k with
  | some v => some v
  | none => alLookup ex k

theorem alUpdate_lookup {α : Type} [DecidableEq α] (adds : List (α × Nat)) :
    ∀ (ex : List (α × Nat)) (k : α), (adds.map Prod.fst).Nodup →
    alLookup (alUpdate ex adds) k = lookup2 adds ex k := by
  induction adds with
  | nil => intro ex k _; simp [alUpdate, lookup2, alLookup]
  | cons kv rest ih =>
      intro ex k h
      obtain ⟨k₀, v₀⟩ := kv
      simp only [List.map_cons, List.nodup_cons] at h
      simp only [alUpdate, List.foldl_cons]
      have hrest : alLookup (alUpdate (alSet ex k₀ v₀) rest) k = lookup2 rest (alSet ex k₀ v₀) k :=
        ih (alSet ex k₀ v₀) k h.2
      simp only [alUpdate] at hrest
      rw [hrest]
      unfold lookup2
      by_cases hk : k = k₀
      · subst hk
        have hnone : alLookup rest k = none := alLookup_eq_none _ _ h.1
        simp [hnone, alLookup, alLookup_alSet_self]
      · simp [alLookup, hk, alLookup_alSet_ne _ _ _ _ hk]

theorem lookup2_some_cases {α : Type} [DecidableEq α] (pr ex : List (α × Nat)) (k : α) (v : Nat)
    (h : lookup2 pr ex k = some v) :
    alLookup pr k = some v ∨ (alLookup pr k = none ∧ alLookup ex k = some v) := by
  unfold lookup2 at h
  cases hpr : alLookup pr k with
  | none => right; rw [hpr] at h; exact ⟨rfl, h⟩
  | some w => left; rw [hpr] at h; exact h

theorem lookup2_none_cases {α : Type} [DecidableEq α] (pr ex : List (α × Nat)) (k : α)
    (h : lookup2 pr ex k = none) : alLookup pr k = none ∧ alLookup ex k = none := by
  unfold lookup2 at h
  cases hpr : alLookup pr k with
  | none => rw [hpr] at h; exact ⟨rfl, h⟩
  | some w => rw [hpr] at h; cases h

/-! ## Merge-upsert lemmas -/

/-- The dedup key of a staged or durable line-item row: the values of the
(hash, cost_entry_id) conflict columns. -/
def liKey (row : PyDict) : Option String × Option String :=
  (alLookup row "hash", alLookup row "cost_entry_id")

theorem conflictKeyMatches_iff_liKey (r1 r2 : PyDict) :
    conflictKeyMatches line_item_conflict_columns r1 r2 = true ↔ liKey r1 = liKey r2 := by
  simp [conflictKeyMatches, line_item_conflict_columns, liKey, Prod.ext_iff, and_comm]

/-- The durable table holds a row with the given dedup key. -/
def hasKey (table : List PyDict) (k : Option String × Option String) : Prop :=
  ∃ r ∈ table, liKey r = k

/-- All staged rows folded into the durable table (the body of the merge). -/
def mergeAll (table rows : List PyDict) : List PyDict :=
  rows.foldl (upsertRow line_item_conflict_columns) table

theorem merge_temp_table_lineItems (db : AwsDB) :
    (merge_temp_table line_item_conflict_columns db).lineItems =
      mergeAll db.lineItems db.tempLineItems := rfl

theorem upsertRow_length_of_hasKey (table : List PyDict) (inc : PyDict)
    (h : hasKey table (liKey inc)) :
    (upsertRow line_item_conflict_columns table inc).length = table.length := by
  induction table with
  | nil => obtain ⟨r, hr, _⟩ := h; cases hr
  | cons r rest ih =>
      by_cases hm : conflictKeyMatches line_item_conflict_columns r inc = true
      · simp [upsertRow, hm]
      · obtain ⟨r', hr', hk⟩ := h
        rcases List.mem_cons.mp hr' with hr0 | hrrest
        · subst hr0
          exact absurd ((conflictKeyMatches_iff_liKey r' inc).mpr hk) hm
        · simp [upsertRow, hm, ih ⟨r', hrrest, hk⟩]

theorem upsertRow_hasKey (table : List PyDict) (inc : PyDict) (k : Option String × Option String) :
    hasKey (upsertRow line_item_conflict_columns table inc) k ↔
      hasKey table k ∨ k = liKey inc := by
  induction table with
  | nil =>
      simp [upsertRow, hasKey, eq_comm]
  | cons r rest ih =>
      by_cases hm : conflictKeyMatches line_item_conflict_columns r inc = true
      · have hkr : liKey r = liKey inc := (conflictKeyMatches_iff_liKey r inc).mp hm
        simp only [upsertRow, hm, if_pos]
        constructor
        · rintro ⟨r', hr', hk⟩
          rcases List.mem_cons.mp hr' with h0 | h1
          · subst h0; right; exact hk.symm
          · left; exact ⟨r', List.mem_cons_of_mem _ h1, hk⟩
        · rintro (⟨r', hr', hk⟩ | hk)
          · rcases List.mem_cons.mp hr' with h0 | h1
            · subst h0; exact ⟨inc, List.mem_cons_self _ _, by rw [← hkr, hk]⟩
            · exact ⟨r', List.mem_cons_of_mem _ h1, hk⟩
          · exact ⟨inc, List.mem_cons_self _ _, hk.symm⟩
      · simp only [upsertRow, hm, if_neg, Bool.not_eq_true]
        constructor
        · rintro ⟨r', hr', hk⟩
          rcases List.mem_cons.mp hr' with h0 | h1
          · subst h0; left; exact ⟨r', List.mem_cons_self _ _, hk⟩
          · rcases (ih).mp ⟨r', h1, hk⟩ with h | h
            · left; obtain ⟨r2, hr2, hk2⟩ := h
              exact ⟨r2, List.mem_cons_of_mem _ hr2, hk2⟩
            · right; exact h
        · rintro (⟨r', hr', hk⟩ | hk)
          · rcases List.mem_cons.mp hr' with h0 | h1
            · subst h0; exact ⟨r', List.mem_cons_self _ _, hk⟩
            · obtain ⟨r2, hr2, hk2⟩ := (ih).mpr (Or.inl ⟨r', h1, hk⟩)
              exact ⟨r2, List.mem_cons_of_mem _ hr2, hk2⟩
          · obtain ⟨r2, hr2, hk2⟩ := (ih).mpr (Or.inr hk)
            exact ⟨r2, List.mem_cons_of_mem _ hr2, hk2⟩

theorem upsertRow_pairwise (table : List PyDict) (inc : PyDict)
    (h : table.Pairwise (fun r1 r2 => liKey r1 ≠ liKey r2)) :
    (upsertRow line_item_conflict_columns table inc).Pairwise
      (fun r1 r2 => liKey r1 ≠ liKey r2) := by
  induction table with
  | nil => simp [upsertRow]
  | cons r rest ih =>
      rcases List.pairwise_cons.mp h with ⟨hr, hrest⟩
      by_cases hm : conflictKeyMatches line_item_conflict_columns r inc = true
      · have hkr : liKey r = liKey inc := (conflictKeyMatches_iff_liKey r inc).mp hm
        simp only [upsertRow, hm, if_pos]
        exact List.pairwise_cons.mpr ⟨fun r' hr' => hkr ▸ hr r' hr', hrest⟩
      · have hkr : liKey r ≠ liKey inc := fun he =>
          hm ((conflictKeyMatches_iff_liKey r inc).mpr he)
        simp only [upsertRow, hm, if_neg, Bool.not_eq_true]
        refine List.pairwise_cons.mpr ⟨?_, ih hrest⟩
        intro r' hr'
        have : hasKey (upsertRow line_item_conflict_columns rest inc) (liKey r') :=
          ⟨r', hr', rfl⟩
        rcases (upsertRow_hasKey rest inc (liKey r')).mp this with hk | hk
        · obtain ⟨r2, hr2, hk2⟩ := hk
          exact fun he => hr r2 hr2 (he.trans hk2.symm)
        · exact fun he => hkr (he.trans hk)

theorem mergeAll_append (table : List PyDict) (rows1 rows2 : List PyDict) :
    mergeAll table (rows1 ++ rows2) = mergeAll (mergeAll table rows1) rows2 := by
  simp [mergeAll, List.foldl_append]

theorem mergeAll_hasKey (rows : List PyDict) :
    ∀ (table : List PyDict) (k : Option String × Option String),
    hasKey (mergeAll table rows) k ↔ hasKey table k ∨ ∃ r ∈ rows, liKey r = k := by
  induction rows with
  | nil => intro table k; simp [mergeAll]
  | cons r rest ih =>
      intro table k
      simp only [mergeAll, List.foldl_cons]
      have := ih (upsertRow line_item_conflict_columns table r) k
      simp only [mergeAll] at this
      rw [this, upsertRow_hasKey]
      simp only [List.mem_cons]
      constructor
      · rintro ((h | h) | h)
        · exact Or.inl h
        · exact Or.inr ⟨r, Or.inl rfl, h.symm⟩
        · obtain ⟨r', hr', hk⟩ := h
          exact Or.inr ⟨r', Or.inr hr', hk⟩
      · rintro (h | ⟨r', hr' | hr', hk⟩)
        · exact Or.inl (Or.inl h)
        · subst hr'; exact Or.inl (Or.inr hk.symm)
        · exact Or.inr ⟨r', hr', hk⟩

theorem mergeAll_length_of_all_hasKey (rows : List PyDict) :
    ∀ (table : List PyDict), (∀ r ∈ rows, hasKey table (liKey r)) →
    (mergeAll table rows).length = table.length := by
  induction rows with
  | nil => intro table _; simp [mergeAll]
  | cons r rest ih =>
      intro table hall
      simp only [mergeAll, List.foldl_cons]
      have h1 : hasKey table (liKey r) := hall r (List.mem_cons_self _ _)
      have h2 : ∀ r' ∈ rest, hasKey (upsertRow line_item_conflict_columns table r) (liKey r') := by
        intro r' hr'
        rw [upsertRow_hasKey]
        exact Or.inl (hall r' (List.mem_cons_of_mem _ hr'))
      have := ih (upsertRow line_item_conflict_columns table r) h2
      simp only [mergeAll] at this
      rw [this, upsertRow_length_of_hasKey table r h1]

theorem mergeAll_pairwise (rows : List PyDict) :
    ∀ (table : List PyDict), table.Pairwise (fun r1 r2 => liKey r1 ≠ liKey r2) →
    (mergeAll table rows).Pairwise (fun r1 r2 => liKey r1 ≠ liKey r2) := by
  induction rows with
  | nil => intro table h; simpa [mergeAll] using h
  | cons r rest ih =>
      intro table h
      simp only [mergeAll, List.foldl_cons]
      have := ih (upsertRow line_item_conflict_columns table r) (upsertRow_pairwise table r h)
      simpa [mergeAll] using this

/-! ## Stability of the row under the memory split -/

/-- Keeps the row entries the memory split never touches. -/
def nonMemoryEntry (kv : String × String) : Bool :=
  kv.1 != "product/memory" && kv.1 != "product/memory_unit"

/-- The row restricted to the entries the memory split never touches. -/
def nonMemory (row : PyDict) : PyDict := row.filter nonMemoryEntry

theorem filter_alSet_false (p : String × String → Bool) (m : PyDict) (k v : String)
    (hp : ∀ w, p (k, w) = false) : (alSet m k v).filter p = m.filter p := by
  induction m with
  | nil => simp [alSet, hp]
  | cons kv rest ih =>
      obtain ⟨k0, v0⟩ := kv
      by_cases h : k = k0
      · subst h; simp [alSet, List.filter, hp]
      · simp only [alSet, if_neg h, List.filter_cons]
        cases hp0 : p (k0, v0) <;> simp [hp0, ih]

theorem nonMemory_adjust {row row' : PyDict} (h : adjustMemoryRow row = some row') :
    nonMemory row' = nonMemory row := by
  have hp1 : ∀ w, nonMemoryEntry ("product/memory", w) = false := by
    intro w; simp [nonMemoryEntry]
  have hp2 : ∀ w, nonMemoryEntry ("product/memory_unit", w) = false := by
    intro w; simp [nonMemoryEntry]
  unfold adjustMemoryRow at h
  split at h
  · cases h; rfl
  · split at h
    · cases h
      unfold nonMemory
      rw [filter_alSet_false _ _ _ _ hp2, filter_alSet_false _ _ _ _ hp1]
    · cases h
      unfold nonMemory
      rw [filter_alSet_false _ _ _ _ hp2, filter_alSet_false _ _ _ _ hp1]
    · cases h

theorem filter_factors (row : PyDict) (p q : (String × String) → Bool)
    (himp : ∀ kv, p kv = true → q kv = true) :
    (row.filter q).filter p = row.filter p := by
  induction row with
  | nil => simp
  | cons kv rest ih =>
      cases hq : q kv
      · have hp : p kv = false := by
          cases hp : p kv
          · rfl
          · rw [himp kv hp] at hq; cases hq
        simp [List.filter_cons, hq, hp, ih]
      · simp [List.filter_cons, hq, ih]

/-- The mapped line-item data of a row together with the tag blob — the
content-bearing part of a built line item, a pure function of the row. -/
def rowLineItemData (cm : ColumnMaps) (row : PyDict) : PyDict :=
  alSet (clean_data ((row.filter (fun kv => (alLookup cm.lineItem kv.1).isSome)).map
      (fun kv => ((alLookup cm.lineItem kv.1).getD "", kv.2))))
    "tags" (_process_tags row)

/-- The content hash of the line item built from a row: a pure function of
the (unadjusted) row once the memory columns are not line-item-mapped. -/
def hashOfRow (cm : ColumnMaps) (hashColumns : List String) (row : PyDict) : String :=
  hash_string_to_hex (_create_line_item_hash_string hashColumns (rowLineItemData cm row))

theorem rowLineItemData_nonMemory (cm : ColumnMaps) (row1 row2 : PyDict)
    (h : nonMemory row1 = nonMemory row2)
    (hm1 : alLookup cm.lineItem "product/memory" = none)
    (hm2 : alLookup cm.lineItem "product/memory_unit" = none) :
    rowLineItemData cm row1 = rowLineItemData cm row2 := by
  have hmap : ∀ kv : String × String,
      ((alLookup cm.lineItem kv.1).isSome : Bool) = true → nonMemoryEntry kv = true := by
    intro kv hkv
    by_cases h1 : kv.1 = "product/memory"
    · rw [h1, hm1] at hkv; cases hkv
    · by_cases h2 : kv.1 = "product/memory_unit"
      · rw [h2, hm2] at hkv; cases hkv
      · simp [nonMemoryEntry, h1, h2]
  have htag : ∀ kv : String × String,
      (strContains kv.1 "resourceTags" && kv.2 != "") = true → nonMemoryEntry kv = true := by
    intro kv hkv
    by_cases h1 : kv.1 = "product/memory"
    · rw [Bool.and_eq_true] at hkv
      rw [h1] at hkv
      have : strContains "product/memory" "resourceTags" = false := by decide
      rw [this] at hkv
      cases hkv.1
    · by_cases h2 : kv.1 = "product/memory_unit"
      · rw [Bool.and_eq_true] at hkv
        rw [h2] at hkv
        have : strContains "product/memory_unit" "resourceTags" = false := by decide
        rw [this] at hkv
        cases hkv.1
      · simp [nonMemoryEntry, h1, h2]
  have hfil : row1.filter (fun kv => (alLookup cm.lineItem kv.1).isSome) =
      row2.filter (fun kv => (alLookup cm.lineItem kv.1).isSome) := by
    rw [← filter_factors row1 _ nonMemoryEntry hmap, ← filter_factors row2 _ nonMemoryEntry hmap]
    unfold nonMemory at h
    rw [h]
  have htags : _process_tags row1 = _process_tags row2 := by
    unfold _process_tags
    have h1 := filter_factors row1 (fun kv => strContains kv.1 "resourceTags" && kv.2 != "")
      nonMemoryEntry htag
    have h2 := filter_factors row2 (fun kv => strContains kv.1 "resourceTags" && kv.2 != "")
      nonMemoryEntry htag
    unfold nonMemory at h
    rw [← h1, ← h2, h]
  unfold rowLineItemData
  rw [hfil, htags]

theorem get_data_for_table_eq {row m : PyDict} {r d : PyDict}
    (h : _get_data_for_table row m = some (r, d)) :
    adjustMemoryRow row = some r ∧
    d = (r.filter (fun kv => (alLookup m kv.1).isSome)).map
        (fun kv => ((alLookup m kv.1).getD "", kv.2)) := by
  unfold _get_data_for_table at h
  split at h
  · cases h
  · simp only [Option.some.injEq, Prod.mk.injEq] at h
    obtain ⟨h1, h2⟩ := h
    subst h1
    exact ⟨by assumption, h2.symm⟩

theorem create_line_item_spec {cm : ColumnMaps} {hashColumns : List String}
    {row : PyDict} {ceId bId : Nat} {pId prId rId : Option Nat} {st : ProcState}
    {rowOut : PyDict} {st' : ProcState}
    (h : _create_cost_entry_line_item cm hashColumns row ceId bId pId prId rId st =
      some (rowOut, st'))
    (hid1 : "cost_entry_id" ∉ hashColumns)
    (hid2 : "cost_entry_bill_id" ∉ hashColumns)
    (hid3 : "cost_entry_product_id" ∉ hashColumns)
    (hid4 : "cost_entry_pricing_id" ∉ hashColumns)
    (hid5 : "cost_entry_reservation_id" ∉ hashColumns) :
    ∃ item,
      st' = { st with prLineItems := st.prLineItems ++ [item], trace := st.trace ++ [item] } ∧
      adjustMemoryRow row = some rowOut ∧
      alLookup item "cost_entry_id" = some (idValue (some ceId)) ∧
      alLookup item "cost_entry_bill_id" = some (idValue (some bId)) ∧
      alLookup item "hash" = some (hashOfRow cm hashColumns rowOut) := by
  unfold _create_cost_entry_line_item at h
  split at h
  · cases h
  · rename_i r0 d0 heq
    simp only [Option.some.injEq, Prod.mk.injEq] at h
    obtain ⟨hrow0, hst⟩ := h
    rw [hrow0] at heq hst
    obtain ⟨hadj, hdata0⟩ := get_data_for_table_eq heq
    refine ⟨_, hst.symm, hadj, ?_, ?_, ?_⟩
    · rw [alLookup_alSet_ne _ _ _ _ (by decide),
        alLookup_alSet_ne _ _ _ _ (by decide),
        alLookup_alSet_ne _ _ _ _ (by decide),
        alLookup_alSet_ne _ _ _ _ (by decide),
        alLookup_alSet_ne _ _ _ _ (by decide),
        alLookup_alSet_self]
    · rw [alLookup_alSet_ne _ _ _ _ (by decide),
        alLookup_alSet_ne _ _ _ _ (by decide),
        alLookup_alSet_ne _ _ _ _ (by decide),
        alLookup_alSet_ne _ _ _ _ (by decide),
        alLookup_alSet_self]
    · rw [alLookup_alSet_self]
      have hd2 : alSet (clean_data d0) "tags" (_process_tags rowOut) =
          rowLineItemData cm rowOut := by
        rw [hdata0]; rfl
      have hcols : ∀ c ∈ hashColumns,
          alLookup (alSet (alSet (alSet (alSet (alSet
              (alSet (clean_data d0) "tags" (_process_tags rowOut))
              "cost_entry_id" (idValue (some ceId)))
              "cost_entry_bill_id" (idValue (some bId)))
              "cost_entry_product_id" (idValue pId))
              "cost_entry_pricing_id" (idValue prId))
              "cost_entry_reservation_id" (idValue rId)) c =
            alLookup (rowLineItemData cm rowOut) c := by
        intro c hc
        have n1 : c ≠ "cost_entry_id" := fun he => hid1 (he ▸ hc)
        have n2 : c ≠ "cost_entry_bill_id" := fun he => hid2 (he ▸ hc)
        have n3 : c ≠ "cost_entry_product_id" := fun he => hid3 (he ▸ hc)
        have n4 : c ≠ "cost_entry_pricing_id" := fun he => hid4 (he ▸ hc)
        have n5 : c ≠ "cost_entry_reservation_id" := fun he => hid5 (he ▸ hc)
        rw [alLookup_alSet_ne _ _ _ _ n5, alLookup_alSet_ne _ _ _ _ n4,
          alLookup_alSet_ne _ _ _ _ n3, alLookup_alSet_ne _ _ _ _ n2,
          alLookup_alSet_ne _ _ _ _ n1, hd2]
      have hhs : _create_line_item_hash_string hashColumns
          (alSet (alSet (alSet (alSet (alSet
              (alSet (clean_data d0) "tags" (_process_tags rowOut))
              "cost_entry_id" (idValue (some ceId)))
              "cost_entry_bill_id" (idValue (some bId)))
              "cost_entry_product_id" (idValue pId))
              "cost_entry_pricing_id" (idValue prId))
              "cost_entry_reservation_id" (idValue rId)) =
          _create_line_item_hash_string hashColumns (rowLineItemData cm rowOut) := by
        unfold _create_line_item_hash_string stringify_json_data
        congr 1
        refine List.map_congr_left ?_
        intro c hc
        rw [hcols c hc]
      rw [hhs]
      rfl

/-! ## Run invariants -/

/-- The dimension key → id maps only ever grow during a run (reservation
attribute overwrites keep id and key). -/
structure DbGrows (db db' : AwsDB) : Prop where
  bills : ∃ l, billMapOf db' = billMapOf db ++ l
  ces : ∃ l, costEntryMapOf db' = costEntryMapOf db ++ l
  prods : ∃ l, productMapOf db' = productMapOf db ++ l
  prices : ∃ l, pricingMapOf db' = pricingMapOf db ++ l
  resvs : ∃ l, reservationMapOf db' = reservationMapOf db ++ l

theorem dbGrows_refl (db : AwsDB) : DbGrows db db :=
  ⟨⟨[], by simp⟩, ⟨[], by simp⟩, ⟨[], by simp⟩, ⟨[], by simp⟩, ⟨[], by simp⟩⟩

theorem dbGrows_trans {a b c : AwsDB} (h1 : DbGrows a b) (h2 : DbGrows b c) :
    DbGrows a c := by
  obtain ⟨⟨l1, e1⟩, ⟨l2, e2⟩, ⟨l3, e3⟩, ⟨l4, e4⟩, ⟨l5, e5⟩⟩ := h1
  obtain ⟨⟨m1, f1⟩, ⟨m2, f2⟩, ⟨m3, f3⟩, ⟨m4, f4⟩, ⟨m5, f5⟩⟩ := h2
  exact ⟨⟨l1 ++ m1, by rw [f1, e1, List.append_assoc]⟩,
    ⟨l2 ++ m2, by rw [f2, e2, List.append_assoc]⟩,
    ⟨l3 ++ m3, by rw [f3, e3, List.append_assoc]⟩,
    ⟨l4 ++ m4, by rw [f4, e4, List.append_assoc]⟩,
    ⟨l5 ++ m5, by rw [f5, e5, List.append_assoc]⟩⟩

theorem alLookup_grow {α β : Type} [DecidableEq α] {m m' : List (α × β)}
    (h : ∃ l, m' = m ++ l) {k : α} {v : β} (hv : alLookup m k = some v) :
    alLookup m' k = some v := by
  obtain ⟨l, rfl⟩ := h
  rw [alLookup_append, hv]

theorem alLookup_single_ne {α β : Type} [DecidableEq α] (k k' : α) (v : β) (h : k' ≠ k) :
    alLookup [(k, v)] k' = none := by simp [alLookup, h]

/-- The coherence invariant a run maintains: the two-step cache view of each
dimension equals the persisted key → id map (for the bill dimension only while
`bill_id` is still unset — `_update_mappings` clears the bill container
without refreshing the bill map, and the bill cache is never read after the
first row); the in-run containers that get folded into the seeded maps are
duplicate-free; and the staging table is empty between steps. -/
structure RunInv (st : ProcState) : Prop where
  bill : st.billId = none →
    ∀ k, lookup2 st.prBills st.existingBillMap k = alLookup (billMapOf st.db) k
  ce : ∀ k, lookup2 st.prCostEntries st.existingCostEntryMap k =
    alLookup (costEntryMapOf st.db) k
  prod : ∀ k, lookup2 st.prProducts st.existingProductMap k =
    alLookup (productMapOf st.db) k
  price : ∀ k, lookup2 st.prPricing st.existingPricingMap k =
    alLookup (pricingMapOf st.db) k
  resv : ∀ k, lookup2 st.prReservations st.existingReservationMap k =
    alLookup (reservationMapOf st.db) k
  prCeN : (st.prCostEntries.map Prod.fst).Nodup
  prProdN : (st.prProducts.map Prod.fst).Nodup
  prPriceN : (st.prPricing.map Prod.fst).Nodup
  prResvN : (st.prReservations.map Prod.fst).Nodup
  tempE : st.db.tempLineItems = []

theorem runInv_init (db : AwsDB) : RunInv (initProcState db) := by
  refine ⟨?_, ?_, ?_, ?_, ?_, ?_, ?_, ?_, ?_, ?_⟩ <;>
    first
      | (intro _ k; simp [initProcState, lookup2, alLookup, billMapOf, costEntryMapOf,
          productMapOf, pricingMapOf, reservationMapOf])
      | (intro k; simp [initProcState, lookup2, alLookup, billMapOf, costEntryMapOf,
          productMapOf, pricingMapOf, reservationMapOf])
      | simp [initProcState]

theorem insertBillRow_none {db : AwsDB} {key : BillKey} {data : PyDict}
    (h : alLookup (billMapOf db) key = none) :
    insertBillRow db key data =
      (db.nextId,
        { db with nextId := db.nextId + 1, bills := db.bills ++ [(db.nextId, key, data)] }) := by
  unfold insertBillRow
  rw [h]

theorem create_bill_eq (cm : ColumnMaps) (providerId : Nat) (row : PyDict) (st : ProcState) :
    _create_cost_entry_bill cm providerId row st =
      (match alLookup st.prBills (billKeyOf row) with
      | some bid => some (bid, row, st)
      | none =>
        match alLookup st.existingBillMap (billKeyOf row) with
        | some bid => some (bid, row, st)
        | none =>
          match _get_data_for_table row cm.bill with
          | none => none
          | some (row', data0) =>
              some ((insertBillRow st.db (billKeyOf row)
                  (alSet data0 "provider_id" (toString providerId))).1,
                row',
                { st with
                  db := (insertBillRow st.db (billKeyOf row)
                    (alSet data0 "provider_id" (toString providerId))).2,
                  prBills := alSet st.prBills (billKeyOf row)
                    (insertBillRow st.db (billKeyOf row)
                      (alSet data0 "provider_id" (toString providerId))).1 })) := rfl

theorem create_bill_spec {cm : ColumnMaps} {providerId : Nat} {row : PyDict} {st : ProcState}
    {b : Nat} {rowOut : PyDict} {st' : ProcState}
    (hInv : RunInv st) (hb : st.billId = none)
    (h : _create_cost_entry_bill cm providerId row st = some (b, rowOut, st')) :
    RunInv st' ∧ DbGrows st.db st'.db ∧
    alLookup (billMapOf st'.db) (billKeyOf row) = some b ∧
    nonMemory rowOut = nonMemory row ∧
    st'.billId = st.billId ∧ st'.trace = st.trace ∧ st'.prLineItems = st.prLineItems ∧
    st'.db.lineItems = st.db.lineItems := by
  rw [create_bill_eq] at h
  cases hpr : alLookup st.prBills (billKeyOf row) with
  | some bid =>
    rw [hpr] at h
    simp only [Option.some.injEq, Prod.mk.injEq] at h
    obtain ⟨h1, h2, h3⟩ := h
    subst h1; rw [← h2, ← h3]
    refine ⟨hInv, dbGrows_refl _, ?_, rfl, rfl, rfl, rfl, rfl⟩
    rw [← hInv.bill hb (billKeyOf row)]
    simp [lookup2, hpr]
  | none =>
    rw [hpr] at h
    cases hex : alLookup st.existingBillMap (billKeyOf row) with
    | some bid =>
      rw [hex] at h
      simp only [Option.some.injEq, Prod.mk.injEq] at h
      obtain ⟨h1, h2, h3⟩ := h
      subst h1; rw [← h2, ← h3]
      refine ⟨hInv, dbGrows_refl _, ?_, rfl, rfl, rfl, rfl, rfl⟩
      rw [← hInv.bill hb (billKeyOf row)]
      simp [lookup2, hpr, hex]
    | none =>
      rw [hex] at h
      cases heq : _get_data_for_table row cm.bill with
      | none => rw [heq] at h; cases h
      | some rd =>
        obtain ⟨r0, d0⟩ := rd
        rw [heq] at h
        simp only [Option.some.injEq, Prod.mk.injEq] at h
        obtain ⟨h1, h2, h3⟩ := h
        rw [h2] at heq
        obtain ⟨hadj, _⟩ := get_data_for_table_eq heq
        have hmapnone : alLookup (billMapOf st.db) (billKeyOf row) = none := by
          rw [← hInv.bill hb (billKeyOf row)]
          simp [lookup2, hpr, hex]
        rw [insertBillRow_none hmapnone] at h3 h1
        have hmap' : billMapOf
            { st.db with
              nextId := st.db.nextId + 1,
              bills := st.db.bills ++
                [(st.db.nextId, billKeyOf row, alSet d0 "provider_id" (toString providerId))] } =
            billMapOf st.db ++ [(billKeyOf row, st.db.nextId)] := by
          simp [billMapOf]
        have hbind : alLookup (billMapOf
            { st.db with
              nextId := st.db.nextId + 1,
              bills := st.db.bills ++
                [(st.db.nextId, billKeyOf row, alSet d0 "provider_id" (toString providerId))] })
            (billKeyOf row) = some st.db.nextId := by
          rw [hmap', alLookup_append, hmapnone]
          simp [alLookup]
        rw [← h3, ← h1]
        refine ⟨?_, ?_, ?_, nonMemory_adjust hadj, rfl, rfl, rfl, rfl⟩
        · refine ⟨?_, hInv.ce, hInv.prod, hInv.price, hInv.resv,
            hInv.prCeN, hInv.prProdN, hInv.prPriceN, hInv.prResvN, hInv.tempE⟩
          intro _ k
          by_cases hk : k = billKeyOf row
          · subst hk
            simp [lookup2, alLookup_alSet_self, hbind]
          · unfold lookup2
            rw [alLookup_alSet_ne _ _ _ _ hk]
            have hprev := hInv.bill hb k
            unfold lookup2 at hprev
            rw [hprev, hmap', alLookup_append]
            cases halt : alLookup (billMapOf st.db) k
            · simp [alLookup_single_ne _ _ _ hk]
            · simp
        · exact ⟨⟨[(billKeyOf row, st.db.nextId)], hmap'⟩,
            ⟨[], by simp [costEntryMapOf]⟩,
            ⟨[], by simp [productMapOf]⟩,
            ⟨[], by simp [pricingMapOf]⟩,
            ⟨[], by simp [reservationMapOf]⟩⟩
        · exact hbind

/-- The interval-start component a row's cost entry is keyed on. -/
def rowIntervalStart (row : PyDict) : Option String :=
  match alLookup row "identity/TimeInterval" with
  | none => none
  | some interval =>
      match _get_cost_entry_time_interval interval with
      | none => none
      | some (start, _) => some start

theorem insertCostEntryRow_none {db : AwsDB} {billId : Nat} {start stop : String}
    (h : alLookup (costEntryMapOf db) (billId, start) = none) :
    insertCostEntryRow db billId start stop =
      (db.nextId,
        { db with
          nextId := db.nextId + 1,
          costEntries := db.costEntries ++ [(db.nextId, (billId, start), stop)] }) := by
  unfold insertCostEntryRow
  rw [h]

theorem create_cost_entry_eq (row : PyDict) (billId : Nat) (st : ProcState) :
    _create_cost_entry row billId st =
      (match alLookup row "identity/TimeInterval" with
      | none => none
      | some interval =>
        match _get_cost_entry_time_interval interval with
        | none => none
        | some (start, stop) =>
          match alLookup st.prCostEntries (billId, start) with
          | some cid => some (cid, st)
          | none =>
            match alLookup st.existingCostEntryMap (billId, start) with
            | some cid => some (cid, st)
            | none =>
                some ((insertCostEntryRow st.db billId start stop).1,
                  { st with
                    db := (insertCostEntryRow st.db billId start stop).2,
                    prCostEntries := alSet st.prCostEntries (billId, start)
                      (insertCostEntryRow st.db billId start stop).1 })) := rfl

theorem create_cost_entry_spec {row : PyDict} {billId : Nat} {st : ProcState}
    {cid : Nat} {st' : ProcState}
    (hInv : RunInv st)
    (h : _create_cost_entry row billId st = some (cid, st')) :
    RunInv st' ∧ DbGrows st.db st'.db ∧
    (∃ start, rowIntervalStart row = some start ∧
      alLookup (costEntryMapOf st'.db) (billId, start) = some cid) ∧
    st'.billId = st.billId ∧ st'.trace = st.trace ∧ st'.prLineItems = st.prLineItems ∧
    st'.db.lineItems = st.db.lineItems := by
  rw [create_cost_entry_eq] at h
  cases hint : alLookup row "identity/TimeInterval" with
  | none => rw [hint] at h; cases h
  | some interval =>
    rw [hint] at h
    simp only [] at h
    cases hsplit : _get_cost_entry_time_interval interval with
    | none => rw [hsplit] at h; cases h
    | some se =>
      obtain ⟨start, stop⟩ := se
      rw [hsplit] at h
      simp only [] at h
      have hstart : rowIntervalStart row = some start := by
        simp [rowIntervalStart, hint, hsplit]
      cases hpr : alLookup st.prCostEntries (billId, start) with
      | some cid0 =>
        rw [hpr] at h
        simp only [Option.some.injEq, Prod.mk.injEq] at h
        obtain ⟨h1, h2⟩ := h
        subst h1; rw [← h2]
        refine ⟨hInv, dbGrows_refl _, ⟨start, hstart, ?_⟩, rfl, rfl, rfl, rfl⟩
        rw [← hInv.ce (billId, start)]
        simp [lookup2, hpr]
      | none =>
        rw [hpr] at h
        cases hex : alLookup st.existingCostEntryMap (billId, start) with
        | some cid0 =>
          rw [hex] at h
          simp only [Option.some.injEq, Prod.mk.injEq] at h
          obtain ⟨h1, h2⟩ := h
          subst h1; rw [← h2]
          refine ⟨hInv, dbGrows_refl _, ⟨start, hstart, ?_⟩, rfl, rfl, rfl, rfl⟩
          rw [← hInv.ce (billId, start)]
          simp [lookup2, hpr, hex]
        | none =>
          rw [hex] at h
          simp only [Option.some.injEq, Prod.mk.injEq] at h
          obtain ⟨h1, h2⟩ := h
          have hmapnone : alLookup (costEntryMapOf st.db) (billId, start) = none := by
            rw [← hInv.ce (billId, start)]
            simp [lookup2, hpr, hex]
          rw [insertCostEntryRow_none hmapnone] at h2 h1
          have hmap' : costEntryMapOf
              { st.db with
                nextId := st.db.nextId + 1,
                costEntries := st.db.costEntries ++ [(st.db.nextId, (billId, start), stop)] } =
              costEntryMapOf st.db ++ [((billId, start), st.db.nextId)] := by
            simp [costEntryMapOf]
          have hbind : alLookup (costEntryMapOf
              { st.db with
                nextId := st.db.nextId + 1,
                costEntries := st.db.costEntries ++ [(st.db.nextId, (billId, start), stop)] })
              (billId, start) = some st.db.nextId := by
            rw [hmap', alLookup_append, hmapnone]
            simp [alLookup]
          rw [← h2, ← h1]
          refine ⟨?_, ?_, ⟨start, hstart, hbind⟩, rfl, rfl, rfl, rfl⟩
          · refine ⟨?_, ?_, hInv.prod, hInv.price, hInv.resv,
              alSet_keys_nodup _ _ _ hInv.prCeN, hInv.prProdN, hInv.prPriceN,
              hInv.prResvN, hInv.tempE⟩
            · intro hbid k
              have hprev := hInv.bill hbid k
              unfold lookup2 at hprev ⊢
              rw [hprev]
              simp [billMapOf]
            · intro k
              by_cases hk : k = (billId, start)
              · subst hk
                simp [lookup2, alLookup_alSet_self, hbind]
              · unfold lookup2
                rw [alLookup_alSet_ne _ _ _ _ hk]
                have hprev := hInv.ce k
                unfold lookup2 at hprev
                rw [hprev, hmap', alLookup_append]
                cases halt : alLookup (costEntryMapOf st.db) k
                · simp [alLookup_single_ne _ _ _ hk]
                · simp
          · exact ⟨⟨[], by simp [billMapOf]⟩,
              ⟨[((billId, start), st.db.nextId)], hmap'⟩,
              ⟨[], by simp [productMapOf]⟩,
              ⟨[], by simp [pricingMapOf]⟩,
              ⟨[], by simp [reservationMapOf]⟩⟩

theorem insertProductRow_none {db : AwsDB} {key : ProductKey} {data : PyDict}
    (h : alLookup (productMapOf db) key = none) :
    insertProductRow db key data =
      (db.nextId,
        { db with nextId := db.nextId + 1, products := db.products ++ [(db.nextId, key, data)] }) := by
  unfold insertProductRow
  rw [h]

theorem create_product_eq (cm : ColumnMaps) (row : PyDict) (st : ProcState) :
    _create_cost_entry_product cm row st =
      (match alLookup st.prProducts (productKeyOf row) with
      | some pid => some (some pid, row, st)
      | none =>
        match alLookup st.existingProductMap (productKeyOf row) with
        | some pid => some (some pid, row, st)
        | none =>
          match _get_data_for_table row cm.product with
          | none => none
          | some (row', data) =>
              if allValuesEmpty data then some (none, row', st)
              else
                some (some (insertProductRow st.db (productKeyOf row) data).1, row',
                  { st with
                    db := (insertProductRow st.db (productKeyOf row) data).2,
                    prProducts := alSet st.prProducts (productKeyOf row)
                      (insertProductRow st.db (productKeyOf row) data).1 })) := rfl

theorem create_product_spec {cm : ColumnMaps} {row : PyDict} {st : ProcState}
    {pid : Option Nat} {rowOut : PyDict} {st' : ProcState}
    (hInv : RunInv st)
    (h : _create_cost_entry_product cm row st = some (pid, rowOut, st')) :
    RunInv st' ∧ DbGrows st.db st'.db ∧ nonMemory rowOut = nonMemory row ∧
    st'.billId = st.billId ∧ st'.trace = st.trace ∧ st'.prLineItems = st.prLineItems ∧
    st'.db.lineItems = st.db.lineItems := by
  rw [create_product_eq] at h
  cases hpr : alLookup st.prProducts (productKeyOf row) with
  | some pid0 =>
    rw [hpr] at h
    simp only [Option.some.injEq, Prod.mk.injEq] at h
    obtain ⟨h1, h2, h3⟩ := h
    rw [← h2, ← h3]
    exact ⟨hInv, dbGrows_refl _, rfl, rfl, rfl, rfl, rfl⟩
  | none =>
    rw [hpr] at h
    cases hex : alLookup st.existingProductMap (productKeyOf row) with
    | some pid0 =>
      rw [hex] at h
      simp only [Option.some.injEq, Prod.mk.injEq] at h
      obtain ⟨h1, h2, h3⟩ := h
      rw [← h2, ← h3]
      exact ⟨hInv, dbGrows_refl _, rfl, rfl, rfl, rfl, rfl⟩
    | none =>
      rw [hex] at h
      cases heq : _get_data_for_table row cm.product with
      | none => rw [heq] at h; cases h
      | some rd =>
        obtain ⟨r0, d0⟩ := rd
        rw [heq] at h
        simp only [] at h
        by_cases hemp : allValuesEmpty d0 = true
        · rw [if_pos hemp] at h
          simp only [Option.some.injEq, Prod.mk.injEq] at h
          obtain ⟨h1, h2, h3⟩ := h
          rw [h2] at heq
          obtain ⟨hadj, _⟩ := get_data_for_table_eq heq
          rw [← h3]
          exact ⟨hInv, dbGrows_refl _, nonMemory_adjust hadj, rfl, rfl, rfl, rfl⟩
        · rw [if_neg hemp] at h
          simp only [Option.some.injEq, Prod.mk.injEq] at h
          obtain ⟨h1, h2, h3⟩ := h
          rw [h2] at heq
          obtain ⟨hadj, _⟩ := get_data_for_table_eq heq
          have hmapnone : alLookup (productMapOf st.db) (productKeyOf row) = none := by
            rw [← hInv.prod (productKeyOf row)]
            simp [lookup2, hpr, hex]
          rw [insertProductRow_none hmapnone] at h3
          have hmap' : productMapOf
              { st.db with
                nextId := st.db.nextId + 1,
                products := st.db.products ++ [(st.db.nextId, productKeyOf row, d0)] } =
              productMapOf st.db ++ [(productKeyOf row, st.db.nextId)] := by
            simp [productMapOf]
          rw [← h3]
          refine ⟨?_, ?_, nonMemory_adjust hadj, rfl, rfl, rfl, rfl⟩
          · refine ⟨?_, hInv.ce, ?_, hInv.price, hInv.resv,
              hInv.prCeN, alSet_keys_nodup _ _ _ hInv.prProdN, hInv.prPriceN,
              hInv.prResvN, hInv.tempE⟩
            · intro hbid k
              have hprev := hInv.bill hbid k
              unfold lookup2 at hprev ⊢
              rw [hprev]
              simp [billMapOf]
            · intro k
              by_cases hk : k = productKeyOf row
              · subst hk
                have hbind : alLookup (productMapOf st.db ++ [(productKeyOf row, st.db.nextId)])
                    (productKeyOf row) = some st.db.nextId := by
                  rw [alLookup_append, hmapnone]
                  simp [alLookup]
                simp [lookup2, alLookup_alSet_self, hmap', hbind]
              · unfold lookup2
                rw [alLookup_alSet_ne _ _ _ _ hk]
                have hprev := hInv.prod k
                unfold lookup2 at hprev
                rw [hprev, hmap', alLookup_append]
                cases halt : alLookup (productMapOf st.db) k
                · simp [alLookup_single_ne _ _ _ hk]
                · simp
          · exact ⟨⟨[], by simp [billMapOf]⟩,
              ⟨[], by simp [costEntryMapOf]⟩,
              ⟨[(productKeyOf row, st.db.nextId)], hmap'⟩,
              ⟨[], by simp [pricingMapOf]⟩,
              ⟨[], by simp [reservationMapOf]⟩⟩

theorem insertPricingRow_none {db : AwsDB} {key : String} {data : PyDict}
    (h : alLookup (pricingMapOf db) key = none) :
    insertPricingRow db key data =
      (db.nextId,
        { db with nextId := db.nextId + 1, pricing := db.pricing ++ [(db.nextId, key, data)] }) := by
  unfold insertPricingRow
  rw [h]

theorem create_pricing_eq (cm : ColumnMaps) (row : PyDict) (st : ProcState) :
    _create_cost_entry_pricing cm row st =
      (match alLookup st.prPricing (pricingKeyOf row) with
      | some pid => some (some pid, row, st)
      | none =>
        match alLookup st.existingPricingMap (pricingKeyOf row) with
        | some pid => some (some pid, row, st)
        | none =>
          match _get_data_for_table row cm.pricing with
          | none => none
          | some (row', data) =>
              if allValuesEmpty data then some (none, row', st)
              else
                some (some (insertPricingRow st.db (pricingKeyOf row) data).1, row',
                  { st with
                    db := (insertPricingRow st.db (pricingKeyOf row) data).2,
                    prPricing := alSet st.prPricing (pricingKeyOf row)
                      (insertPricingRow st.db (pricingKeyOf row) data).1 })) := rfl

theorem create_pricing_spec {cm : ColumnMaps} {row : PyDict} {st : ProcState}
    {pid : Option Nat} {rowOut : PyDict} {st' : ProcState}
    (hInv : RunInv st)
    (h : _create_cost_entry_pricing cm row st = some (pid, rowOut, st')) :
    RunInv st' ∧ DbGrows st.db st'.db ∧ nonMemory rowOut = nonMemory row ∧
    st'.billId = st.billId ∧ st'.trace = st.trace ∧ st'.prLineItems = st.prLineItems ∧
    st'.db.lineItems = st.db.lineItems := by
  rw [create_pricing_eq] at h
  cases hpr : alLookup st.prPricing (pricingKeyOf row) with
  | some pid0 =>
    rw [hpr] at h
    simp only [Option.some.injEq, Prod.mk.injEq] at h
    obtain ⟨h1, h2, h3⟩ := h
    rw [← h2, ← h3]
    exact ⟨hInv, dbGrows_refl _, rfl, rfl, rfl, rfl, rfl⟩
  | none =>
    rw [hpr] at h
    cases hex : alLookup st.existingPricingMap (pricingKeyOf row) with
    | some pid0 =>
      rw [hex] at h
      simp only [Option.some.injEq, Prod.mk.injEq] at h
      obtain ⟨h1, h2, h3⟩ := h
      rw [← h2, ← h3]
      exact ⟨hInv, dbGrows_refl _, rfl, rfl, rfl, rfl, rfl⟩
    | none =>
      rw [hex] at h
      cases heq : _get_data_for_table row cm.pricing with
      | none => rw [heq] at h; cases h
      | some rd =>
        obtain ⟨r0, d0⟩ := rd
        rw [heq] at h
        simp only [] at h
        by_cases hemp : allValuesEmpty d0 = true
        · rw [if_pos hemp] at h
          simp only [Option.some.injEq, Prod.mk.injEq] at h
          obtain ⟨h1, h2, h3⟩ := h
          rw [h2] at heq
          obtain ⟨hadj, _⟩ := get_data_for_table_eq heq
          rw [← h3]
          exact ⟨hInv, dbGrows_refl _, nonMemory_adjust hadj, rfl, rfl, rfl, rfl⟩
        · rw [if_neg hemp] at h
          simp only [Option.some.injEq, Prod.mk.injEq] at h
          obtain ⟨h1, h2, h3⟩ := h
          rw [h2] at heq
          obtain ⟨hadj, _⟩ := get_data_for_table_eq heq
          have hmapnone : alLookup (pricingMapOf st.db) (pricingKeyOf row) = none := by
            rw [← hInv.price (pricingKeyOf row)]
            simp [lookup2, hpr, hex]
          rw [insertPricingRow_none hmapnone] at h3
          have hmap' : pricingMapOf
              { st.db with
                nextId := st.db.nextId + 1,
                pricing := st.db.pricing ++ [(st.db.nextId, pricingKeyOf row, d0)] } =
              pricingMapOf st.db ++ [(pricingKeyOf row, st.db.nextId)] := by
            simp [pricingMapOf]
          rw [← h3]
          refine ⟨?_, ?_, nonMemory_adjust hadj, rfl, rfl, rfl, rfl⟩
          · refine ⟨?_, hInv.ce, hInv.prod, ?_, hInv.resv,
              hInv.prCeN, hInv.prProdN, alSet_keys_nodup _ _ _ hInv.prPriceN,
              hInv.prResvN, hInv.tempE⟩
            · intro hbid k
              have hprev := hInv.bill hbid k
              unfold lookup2 at hprev ⊢
              rw [hprev]
              simp [billMapOf]
            · intro k
              by_cases hk : k = pricingKeyOf row
              · subst hk
                have hbind : alLookup (pricingMapOf st.db ++ [(pricingKeyOf row, st.db.nextId)])
                    (pricingKeyOf row) = some st.db.nextId := by
                  rw [alLookup_append, hmapnone]
                  simp [alLookup]
                simp [lookup2, alLookup_alSet_self, hmap', hbind]
              · unfold lookup2
                rw [alLookup_alSet_ne _ _ _ _ hk]
                have hprev := hInv.price k
                unfold lookup2 at hprev
                rw [hprev, hmap', alLookup_append]
                cases halt : alLookup (pricingMapOf st.db) k
                · simp [alLookup_single_ne _ _ _ hk]
                · simp
          · exact ⟨⟨[], by simp [billMapOf]⟩,
              ⟨[], by simp [costEntryMapOf]⟩,
              ⟨[], by simp [productMapOf]⟩,
              ⟨[(pricingKeyOf row, st.db.nextId)], hmap'⟩,
              ⟨[], by simp [reservationMapOf]⟩⟩

theorem upsertReservation_map_update (db : AwsDB) (arn : Option String) (data : PyDict) :
    reservationMapOf
      { db with
        reservations :=
          db.reservations.map (fun r => if r.2.1 = arn then (r.1, arn, data) else r) } =
      reservationMapOf db := by
  unfold reservationMapOf
  simp only [List.map_map]
  refine List.map_congr_left ?_
  intro r _
  by_cases hr : r.2.1 = arn <;> simp [Function.comp, hr]

theorem upsertReservationRow_some {db : AwsDB} {arn : Option String} {data : PyDict} {rid0 : Nat}
    (h : alLookup (reservationMapOf db) arn = some rid0) :
    upsertReservationRow db arn data =
      (rid0,
        { db with
          reservations :=
            db.reservations.map (fun r => if r.2.1 = arn then (r.1, arn, data) else r) }) := by
  unfold upsertReservationRow
  rw [h]

theorem upsertReservationRow_nomatch {db : AwsDB} {arn : Option String} {data : PyDict}
    (h : alLookup (reservationMapOf db) arn = none) :
    upsertReservationRow db arn data =
      (db.nextId,
        { db with
          nextId := db.nextId + 1,
          reservations := db.reservations ++ [(db.nextId, arn, data)] }) := by
  unfold upsertReservationRow
  rw [h]

theorem insertReservationRow_nomatch {db : AwsDB} {arn : Option String} {data : PyDict}
    (h : alLookup (reservationMapOf db) arn = none) :
    insertReservationRow db arn data =
      (db.nextId,
        { db with
          nextId := db.nextId + 1,
          reservations := db.reservations ++ [(db.nextId, arn, data)] }) := by
  unfold insertReservationRow
  rw [h]

theorem create_reservation_eq (cm : ColumnMaps) (row : PyDict) (st : ProcState) :
    _create_cost_entry_reservation cm row st =
      (if (match alLookup st.prReservations (alLookup row "reservation/ReservationARN") with
          | some rid => some rid
          | none => alLookup st.existingReservationMap
              (alLookup row "reservation/ReservationARN")) = none
          ∨ pyLower ((alLookup row "lineItem/LineItemType").getD "") = "rifee" then
        match _get_data_for_table row cm.reservation with
        | none => none
        | some (row', data) =>
            if allValuesEmpty data then some (none, row', st)
            else
              some (some (if pyLower ((alLookup row "lineItem/LineItemType").getD "") = "rifee"
                    then upsertReservationRow st.db (alLookup row "reservation/ReservationARN") data
                    else insertReservationRow st.db (alLookup row "reservation/ReservationARN") data).1,
                row',
                { st with
                  db := (if pyLower ((alLookup row "lineItem/LineItemType").getD "") = "rifee"
                    then upsertReservationRow st.db (alLookup row "reservation/ReservationARN") data
                    else insertReservationRow st.db (alLookup row "reservation/ReservationARN") data).2,
                  prReservations := alSet st.prReservations
                    (alLookup row "reservation/ReservationARN")
                    (if pyLower ((alLookup row "lineItem/LineItemType").getD "") = "rifee"
                      then upsertReservationRow st.db (alLookup row "reservation/ReservationARN") data
                      else insertReservationRow st.db (alLookup row "reservation/ReservationARN") data).1 })
      else
        some ((match alLookup st.prReservations (alLookup row "reservation/ReservationARN") with
          | some rid => some rid
          | none => alLookup st.existingReservationMap
              (alLookup row "reservation/ReservationARN")), row, st)) := rfl

theorem create_reservation_spec {cm : ColumnMaps} {row : PyDict} {st : ProcState}
    {rid : Option Nat} {rowOut : PyDict} {st' : ProcState}
    (hInv : RunInv st)
    (h : _create_cost_entry_reservation cm row st = some (rid, rowOut, st')) :
    RunInv st' ∧ DbGrows st.db st'.db ∧ nonMemory rowOut = nonMemory row ∧
    st'.billId = st.billId ∧ st'.trace = st.trace ∧ st'.prLineItems = st.prLineItems ∧
    st'.db.lineItems = st.db.lineItems := by
  rw [create_reservation_eq] at h
  have hcache : (match alLookup st.prReservations (alLookup row "reservation/ReservationARN") with
      | some rid => some rid
      | none => alLookup st.existingReservationMap (alLookup row "reservation/ReservationARN")) =
      lookup2 st.prReservations st.existingReservationMap
        (alLookup row "reservation/ReservationARN") := rfl
  by_cases hcond : (match alLookup st.prReservations (alLookup row "reservation/ReservationARN") with
      | some rid => some rid
      | none => alLookup st.existingReservationMap
          (alLookup row "reservation/ReservationARN")) = none
      ∨ pyLower ((alLookup row "lineItem/LineItemType").getD "") = "rifee"
  · rw [if_pos hcond] at h
    cases heq : _get_data_for_table row cm.reservation with
    | none => rw [heq] at h; cases h
    | some rd =>
      obtain ⟨r0, d0⟩ := rd
      rw [heq] at h
      simp only [] at h
      by_cases hemp : allValuesEmpty d0 = true
      · rw [if_pos hemp] at h
        simp only [Option.some.injEq, Prod.mk.injEq] at h
        obtain ⟨h1, h2, h3⟩ := h
        rw [h2] at heq
        obtain ⟨hadj, _⟩ := get_data_for_table_eq heq
        rw [← h3]
        exact ⟨hInv, dbGrows_refl _, nonMemory_adjust hadj, rfl, rfl, rfl, rfl⟩
      · rw [if_neg hemp] at h
        simp only [Option.some.injEq, Prod.mk.injEq] at h
        obtain ⟨h1, h2, h3⟩ := h
        rw [h2] at heq
        obtain ⟨hadj, _⟩ := get_data_for_table_eq heq
        by_cases hrif : pyLower ((alLookup row "lineItem/LineItemType").getD "") = "rifee"
        · rw [if_pos hrif] at h3
          cases hmap : alLookup (reservationMapOf st.db)
              (alLookup row "reservation/ReservationARN") with
          | some rid0 =>
            rw [upsertReservationRow_some hmap] at h3
            rw [← h3]
            refine ⟨?_, ?_, nonMemory_adjust hadj, rfl, rfl, rfl, rfl⟩
            · refine ⟨?_, hInv.ce, hInv.prod, hInv.price, ?_,
                hInv.prCeN, hInv.prProdN, hInv.prPriceN,
                alSet_keys_nodup _ _ _ hInv.prResvN, hInv.tempE⟩
              · intro hbid k
                have hprev := hInv.bill hbid k
                unfold lookup2 at hprev ⊢
                rw [hprev]
                simp [billMapOf]
              · intro k
                rw [upsertReservation_map_update]
                by_cases hk : k = alLookup row "reservation/ReservationARN"
                · subst hk
                  simp [lookup2, alLookup_alSet_self, hmap]
                · unfold lookup2
                  rw [alLookup_alSet_ne _ _ _ _ hk]
                  have hprev := hInv.resv k
                  unfold lookup2 at hprev
                  rw [hprev]
            · refine ⟨⟨[], by simp [billMapOf]⟩, ⟨[], by simp [costEntryMapOf]⟩,
                ⟨[], by simp [productMapOf]⟩, ⟨[], by simp [pricingMapOf]⟩,
                ⟨[], ?_⟩⟩
              rw [upsertReservation_map_update]
              simp
          | none =>
            rw [upsertReservationRow_nomatch hmap] at h3
            have hmap' : reservationMapOf
                { st.db with
                  nextId := st.db.nextId + 1,
                  reservations := st.db.reservations ++
                    [(st.db.nextId, alLookup row "reservation/ReservationARN", d0)] } =
                reservationMapOf st.db ++
                  [(alLookup row "reservation/ReservationARN", st.db.nextId)] := by
              simp [reservationMapOf]
            rw [← h3]
            refine ⟨?_, ?_, nonMemory_adjust hadj, rfl, rfl, rfl, rfl⟩
            · refine ⟨?_, hInv.ce, hInv.prod, hInv.price, ?_,
                hInv.prCeN, hInv.prProdN, hInv.prPriceN,
                alSet_keys_nodup _ _ _ hInv.prResvN, hInv.tempE⟩
              · intro hbid k
                have hprev := hInv.bill hbid k
                unfold lookup2 at hprev ⊢
                rw [hprev]
                simp [billMapOf]
              · intro k
                by_cases hk : k = alLookup row "reservation/ReservationARN"
                · subst hk
                  have hbind : alLookup (reservationMapOf st.db ++
                      [(alLookup row "reservation/ReservationARN", st.db.nextId)])
                      (alLookup row "reservation/ReservationARN") = some st.db.nextId := by
                    rw [alLookup_append, hmap]
                    simp [alLookup]
                  simp [lookup2, alLookup_alSet_self, hmap', hbind]
                · unfold lookup2
                  rw [alLookup_alSet_ne _ _ _ _ hk]
                  have hprev := hInv.resv k
                  unfold lookup2 at hprev
                  rw [hprev, hmap', alLookup_append]
                  cases halt : alLookup (reservationMapOf st.db) k
                  · simp [alLookup_single_ne _ _ _ hk]
                  · simp
            · exact ⟨⟨[], by simp [billMapOf]⟩, ⟨[], by simp [costEntryMapOf]⟩,
                ⟨[], by simp [productMapOf]⟩, ⟨[], by simp [pricingMapOf]⟩,
                ⟨[(alLookup row "reservation/ReservationARN", st.db.nextId)], hmap'⟩⟩
        · rw [if_neg hrif] at h3
          have hcnone : lookup2 st.prReservations st.existingReservationMap
              (alLookup row "reservation/ReservationARN") = none := by
            rcases hcond with hc | hc
            · rw [← hcache]; exact hc
            · exact absurd hc hrif
          have hmap : alLookup (reservationMapOf st.db)
              (alLookup row "reservation/ReservationARN") = none := by
            rw [← hInv.resv]; exact hcnone
          rw [insertReservationRow_nomatch hmap] at h3
          have hmap' : reservationMapOf
              { st.db with
                nextId := st.db.nextId + 1,
                reservations := st.db.reservations ++
                  [(st.db.nextId, alLookup row "reservation/ReservationARN", d0)] } =
              reservationMapOf st.db ++
                [(alLookup row "reservation/ReservationARN", st.db.nextId)] := by
            simp [reservationMapOf]
          rw [← h3]
          refine ⟨?_, ?_, nonMemory_adjust hadj, rfl, rfl, rfl, rfl⟩
          · refine ⟨?_, hInv.ce, hInv.prod, hInv.price, ?_,
              hInv.prCeN, hInv.prProdN, hInv.prPriceN,
              alSet_keys_nodup _ _ _ hInv.prResvN, hInv.tempE⟩
            · intro hbid k
              have hprev := hInv.bill hbid k
              unfold lookup2 at hprev ⊢
              rw [hprev]
              simp [billMapOf]
            · intro k
              by_cases hk : k = alLookup row "reservation/ReservationARN"
              · subst hk
                have hbind : alLookup (reservationMapOf st.db ++
                    [(alLookup row "reservation/ReservationARN", st.db.nextId)])
                    (alLookup row "reservation/ReservationARN") = some st.db.nextId := by
                  rw [alLookup_append, hmap]
                  simp [alLookup]
                simp [lookup2, alLookup_alSet_self, hmap', hbind]
              · unfold lookup2
                rw [alLookup_alSet_ne _ _ _ _ hk]
                have hprev := hInv.resv k
                unfold lookup2 at hprev
                rw [hprev, hmap', alLookup_append]
                cases halt : alLookup (reservationMapOf st.db) k
                · simp [alLookup_single_ne _ _ _ hk]
                · simp
          · exact ⟨⟨[], by simp [billMapOf]⟩, ⟨[], by simp [costEntryMapOf]⟩,
              ⟨[], by simp [productMapOf]⟩, ⟨[], by simp [pricingMapOf]⟩,
              ⟨[(alLookup row "reservation/ReservationARN", st.db.nextId)], hmap'⟩⟩
  · rw [if_neg hcond] at h
    simp only [Option.some.injEq, Prod.mk.injEq] at h
    obtain ⟨h1, h2, h3⟩ := h
    rw [← h2, ← h3]
    exact ⟨hInv, dbGrows_refl _, rfl, rfl, rfl, rfl, rfl⟩

theorem alLookup_filter_true {p : (String × String) → Bool} (m : PyDict) (k : String)
    (hk : ∀ w, p (k, w) = true) : alLookup (m.filter p) k = alLookup m k := by
  induction m with
  | nil => simp
  | cons kv rest ih =>
      obtain ⟨k0, v0⟩ := kv
      by_cases hkk : k = k0
      · subst hkk
        rw [List.filter_cons, hk v0]
        simp [alLookup]
      · rw [List.filter_cons]
        cases hp : p (k0, v0) <;> simp [alLookup, hkk, ih]

theorem rowIntervalStart_nonMemory {row1 row2 : PyDict} (h : nonMemory row1 = nonMemory row2) :
    rowIntervalStart row1 = rowIntervalStart row2 := by
  have hkey : ∀ w, nonMemoryEntry ("identity/TimeInterval", w) = true := fun w => rfl
  have hlk : alLookup row1 "identity/TimeInterval" = alLookup row2 "identity/TimeInterval" := by
    rw [← alLookup_filter_true row1 _ hkey, ← alLookup_filter_true row2 _ hkey]
    unfold nonMemory at h
    rw [h]
  unfold rowIntervalStart
  rw [hlk]

theorem hashOfRow_nonMemory {cm : ColumnMaps} {hashColumns : List String} {row1 row2 : PyDict}
    (h : nonMemory row1 = nonMemory row2)
    (hm1 : alLookup cm.lineItem "product/memory" = none)
    (hm2 : alLookup cm.lineItem "product/memory_unit" = none) :
    hashOfRow cm hashColumns row1 = hashOfRow cm hashColumns row2 := by
  unfold hashOfRow
  rw [rowLineItemData_nonMemory cm row1 row2 h hm1 hm2]

theorem batch_flush_spec (st6 : ProcState) (hInv : RunInv st6) {b : Nat}
    (hb : st6.billId = some b) :
    RunInv (_update_mappings
      { _save_to_db st6 with
        db := merge_temp_table line_item_conflict_columns (_save_to_db st6).db }) ∧
    (_update_mappings
      { _save_to_db st6 with
        db := merge_temp_table line_item_conflict_columns (_save_to_db st6).db }).db.lineItems =
      mergeAll st6.db.lineItems st6.prLineItems ∧
    (_update_mappings
      { _save_to_db st6 with
        db := merge_temp_table line_item_conflict_columns (_save_to_db st6).db }).prLineItems = [] ∧
    (_update_mappings
      { _save_to_db st6 with
        db := merge_temp_table line_item_conflict_columns (_save_to_db st6).db }).trace = st6.trace ∧
    (_update_mappings
      { _save_to_db st6 with
        db := merge_temp_table line_item_conflict_columns (_save_to_db st6).db }).billId = st6.billId ∧
    billMapOf (_update_mappings
      { _save_to_db st6 with
        db := merge_temp_table line_item_conflict_columns (_save_to_db st6).db }).db =
      billMapOf st6.db ∧
    costEntryMapOf (_update_mappings
      { _save_to_db st6 with
        db := merge_temp_table line_item_conflict_columns (_save_to_db st6).db }).db =
      costEntryMapOf st6.db ∧
    productMapOf (_update_mappings
      { _save_to_db st6 with
        db := merge_temp_table line_item_conflict_columns (_save_to_db st6).db }).db =
      productMapOf st6.db ∧
    pricingMapOf (_update_mappings
      { _save_to_db st6 with
        db := merge_temp_table line_item_conflict_columns (_save_to_db st6).db }).db =
      pricingMapOf st6.db ∧
    reservationMapOf (_update_mappings
      { _save_to_db st6 with
        db := merge_temp_table line_item_conflict_columns (_save_to_db st6).db }).db =
      reservationMapOf st6.db := by
  have htemp : st6.db.tempLineItems = [] := hInv.tempE
  refine ⟨?_, ?_, rfl, rfl, rfl, ?_, ?_, ?_, ?_, ?_⟩
  · refine ⟨?_, ?_, ?_, ?_, ?_, ?_, ?_, ?_, ?_, rfl⟩
    · intro hc
      exfalso
      simp only [_update_mappings, _save_to_db] at hc
      rw [hb] at hc
      cases hc
    · intro k
      simp only [_update_mappings, _save_to_db, merge_temp_table, lookup2, alLookup]
      rw [alUpdate_lookup _ _ _ hInv.prCeN]
      have := hInv.ce k
      unfold lookup2 at this ⊢
      rw [this]
      simp [costEntryMapOf]
    · intro k
      simp only [_update_mappings, _save_to_db, merge_temp_table, lookup2, alLookup]
      rw [alUpdate_lookup _ _ _ hInv.prProdN]
      have := hInv.prod k
      unfold lookup2 at this ⊢
      rw [this]
      simp [productMapOf]
    · intro k
      simp only [_update_mappings, _save_to_db, merge_temp_table, lookup2, alLookup]
      rw [alUpdate_lookup _ _ _ hInv.prPriceN]
      have := hInv.price k
      unfold lookup2 at this ⊢
      rw [this]
      simp [pricingMapOf]
    · intro k
      simp only [_update_mappings, _save_to_db, merge_temp_table, lookup2, alLookup]
      rw [alUpdate_lookup _ _ _ hInv.prResvN]
      have := hInv.resv k
      unfold lookup2 at this ⊢
      rw [this]
      simp [reservationMapOf]
    · simp [_update_mappings]
    · simp [_update_mappings]
    · simp [_update_mappings]
    · simp [_update_mappings]
  · simp only [_update_mappings, _save_to_db, merge_temp_table]
    rw [htemp]
    simp [mergeAll]
  · simp [_update_mappings, _save_to_db, merge_temp_table, billMapOf]
  · simp [_update_mappings, _save_to_db, merge_temp_table, costEntryMapOf]
  · simp [_update_mappings, _save_to_db, merge_temp_table, productMapOf]
  · simp [_update_mappings, _save_to_db, merge_temp_table, pricingMapOf]
  · simp [_update_mappings, _save_to_db, merge_temp_table, reservationMapOf]

theorem processRowRest_spec {cm : ColumnMaps} {hashColumns : List String}
    {batchSize : Nat} {row1 : PyDict} {billId : Nat} {stb st' : ProcState}
    (hInv : RunInv stb)
    (h : processRowRest cm hashColumns batchSize row1 billId stb = some st')
    (hid1 : "cost_entry_id" ∉ hashColumns)
    (hid2 : "cost_entry_bill_id" ∉ hashColumns)
    (hid3 : "cost_entry_product_id" ∉ hashColumns)
    (hid4 : "cost_entry_pricing_id" ∉ hashColumns)
    (hid5 : "cost_entry_reservation_id" ∉ hashColumns)
    (hm1 : alLookup cm.lineItem "product/memory" = none)
    (hm2 : alLookup cm.lineItem "product/memory_unit" = none) :
    RunInv st' ∧ DbGrows stb.db st'.db ∧ st'.billId = some billId ∧
    ∃ item start ce,
      st'.trace = stb.trace ++ [item] ∧
      rowIntervalStart row1 = some start ∧
      alLookup (costEntryMapOf st'.db) (billId, start) = some ce ∧
      alLookup item "cost_entry_id" = some (idValue (some ce)) ∧
      alLookup item "cost_entry_bill_id" = some (idValue (some billId)) ∧
      alLookup item "hash" = some (hashOfRow cm hashColumns row1) ∧
      mergeAll st'.db.lineItems st'.prLineItems =
        upsertRow line_item_conflict_columns (mergeAll stb.db.lineItems stb.prLineItems) item := by
  unfold processRowRest at h
  simp only [] at h
  have hInv1 : RunInv { stb with billId := some billId } :=
    ⟨fun hc => Option.noConfusion hc, hInv.ce, hInv.prod, hInv.price, hInv.resv,
     hInv.prCeN, hInv.prProdN, hInv.prPriceN, hInv.prResvN, hInv.tempE⟩
  cases hce : _create_cost_entry row1 billId { stb with billId := some billId } with
  | none => rw [hce] at h; cases h
  | some p2 =>
    obtain ⟨costEntryId, st2⟩ := p2
    rw [hce] at h
    simp only [] at h
    obtain ⟨hInv2, hgrow2, ⟨start, hstart, hbind2⟩, hbid2, htr2, hpr2, hli2⟩ :=
      create_cost_entry_spec hInv1 hce
    cases hcp : _create_cost_entry_product cm row1 st2 with
    | none => rw [hcp] at h; cases h
    | some p3 =>
      obtain ⟨productId, row2, st3⟩ := p3
      rw [hcp] at h
      simp only [] at h
      obtain ⟨hInv3, hgrow3, hnm3, hbid3, htr3, hpr3, hli3⟩ := create_product_spec hInv2 hcp
      cases hcpr : _create_cost_entry_pricing cm row2 st3 with
      | none => rw [hcpr] at h; cases h
      | some p4 =>
        obtain ⟨pricingId, row3, st4⟩ := p4
        rw [hcpr] at h
        simp only [] at h
        obtain ⟨hInv4, hgrow4, hnm4, hbid4, htr4, hpr4, hli4⟩ := create_pricing_spec hInv3 hcpr
        cases hcr : _create_cost_entry_reservation cm row3 st4 with
        | none => rw [hcr] at h; cases h
        | some p5 =>
          obtain ⟨reservationId, row4, st5⟩ := p5
          rw [hcr] at h
          simp only [] at h
          obtain ⟨hInv5, hgrow5, hnm5, hbid5, htr5, hpr5, hli5⟩ := create_reservation_spec hInv4 hcr
          cases hcl : _create_cost_entry_line_item cm hashColumns row4 costEntryId billId
              productId pricingId reservationId st5 with
          | none => rw [hcl] at h; cases h
          | some p6 =>
            obtain ⟨rowLi, st6⟩ := p6
            rw [hcl] at h
            simp only [] at h
            obtain ⟨item, hst6, hadjLi, hitemCe, hitemBill, hitemHash⟩ :=
              create_line_item_spec hcl hid1 hid2 hid3 hid4 hid5
            have hnmLi : nonMemory rowLi = nonMemory row1 := by
              rw [nonMemory_adjust hadjLi, hnm5, hnm4, hnm3]
            have hhash1 : alLookup item "hash" = some (hashOfRow cm hashColumns row1) := by
              rw [hitemHash, hashOfRow_nonMemory hnmLi hm1 hm2]
            have hInv6 : RunInv st6 := by
              rw [hst6]
              exact ⟨fun hc => hInv5.bill hc, hInv5.ce, hInv5.prod, hInv5.price, hInv5.resv,
                hInv5.prCeN, hInv5.prProdN, hInv5.prPriceN, hInv5.prResvN, hInv5.tempE⟩
            have hbid6 : st6.billId = some billId := by
              rw [hst6]
              show st5.billId = some billId
              rw [hbid5, hbid4, hbid3, hbid2]
            have htr6 : st6.trace = stb.trace ++ [item] := by
              rw [hst6]
              show st5.trace ++ [item] = stb.trace ++ [item]
              rw [htr5, htr4, htr3, htr2]
            have hli6 : st6.db.lineItems = stb.db.lineItems := by
              rw [hst6]
              show st5.db.lineItems = stb.db.lineItems
              rw [hli5, hli4, hli3, hli2]
            have hpr6 : st6.prLineItems = stb.prLineItems ++ [item] := by
              rw [hst6]
              show st5.prLineItems ++ [item] = stb.prLineItems ++ [item]
              rw [hpr5, hpr4, hpr3, hpr2]
            have hgrow6 : DbGrows stb.db st6.db := by
              have : st6.db = st5.db := by rw [hst6]
              rw [this]
              exact dbGrows_trans hgrow2 (dbGrows_trans hgrow3 (dbGrows_trans hgrow4 hgrow5))
            have hbindLift : alLookup (costEntryMapOf st6.db) (billId, start) = some costEntryId := by
              have : st6.db = st5.db := by rw [hst6]
              rw [this]
              exact alLookup_grow (dbGrows_trans hgrow3 (dbGrows_trans hgrow4 hgrow5)).ces hbind2
            have hliState : mergeAll st6.db.lineItems st6.prLineItems =
                upsertRow line_item_conflict_columns
                  (mergeAll stb.db.lineItems stb.prLineItems) item := by
              rw [hli6, hpr6, mergeAll_append]
              simp [mergeAll]
            by_cases hbat : st6.prLineItems.length ≥ batchSize
            · rw [if_pos hbat] at h
              simp only [Option.some.injEq] at h
              obtain ⟨hN, hNli, hNpr, hNtr, hNbid, hNbill, hNce, hNprod, hNprice, hNresv⟩ :=
                batch_flush_spec st6 hInv6 hbid6
              rw [← h]
              refine ⟨hN, ?_, ?_, item, start, costEntryId, ?_, hstart, ?_, hitemCe, hitemBill,
                hhash1, ?_⟩
              · refine dbGrows_trans hgrow6 ?_
                exact ⟨⟨[], by rw [hNbill]; simp⟩, ⟨[], by rw [hNce]; simp⟩,
                  ⟨[], by rw [hNprod]; simp⟩, ⟨[], by rw [hNprice]; simp⟩,
                  ⟨[], by rw [hNresv]; simp⟩⟩
              · rw [hNbid, hbid6]
              · rw [hNtr, htr6]
              · rw [hNce, hbindLift]
              · rw [hNli, hNpr]
                have : mergeAll (mergeAll st6.db.lineItems st6.prLineItems) [] =
                    mergeAll st6.db.lineItems st6.prLineItems := by simp [mergeAll]
                rw [this, hliState]
            · rw [if_neg hbat] at h
              simp only [Option.some.injEq] at h
              rw [← h]
              exact ⟨hInv6, hgrow6, hbid6, item, start, costEntryId, htr6, hstart,
                hbindLift, hitemCe, hitemBill, hhash1, hliState⟩

theorem processRow_spec {cm : ColumnMaps} {providerId : Nat} {hashColumns : List String}
    {batchSize : Nat} {row : PyDict} {st st' : ProcState}
    (hInv : RunInv st)
    (h : processRow cm providerId hashColumns batchSize row st = some st')
    (hid1 : "cost_entry_id" ∉ hashColumns)
    (hid2 : "cost_entry_bill_id" ∉ hashColumns)
    (hid3 : "cost_entry_product_id" ∉ hashColumns)
    (hid4 : "cost_entry_pricing_id" ∉ hashColumns)
    (hid5 : "cost_entry_reservation_id" ∉ hashColumns)
    (hm1 : alLookup cm.lineItem "product/memory" = none)
    (hm2 : alLookup cm.lineItem "product/memory_unit" = none) :
    RunInv st' ∧ DbGrows st.db st'.db ∧
    ∃ b, st'.billId = some b ∧
      (st.billId = some b ∨
        (st.billId = none ∧ alLookup (billMapOf st'.db) (billKeyOf row) = some b)) ∧
      ∃ item start ce,
        st'.trace = st.trace ++ [item] ∧
        rowIntervalStart row = some start ∧
        alLookup (costEntryMapOf st'.db) (b, start) = some ce ∧
        alLookup item "cost_entry_id" = some (idValue (some ce)) ∧
        alLookup item "cost_entry_bill_id" = some (idValue (some b)) ∧
        alLookup item "hash" = some (hashOfRow cm hashColumns row) ∧
        mergeAll st'.db.lineItems st'.prLineItems =
          upsertRow line_item_conflict_columns
            (mergeAll st.db.lineItems st.prLineItems) item := by
  unfold processRow at h
  cases hb0 : st.billId with
  | some b0 =>
    rw [hb0] at h
    simp only [] at h
    obtain ⟨hI, hg, hbid, item, start, ce, htr, hstart, hbind, hceI, hbillI, hhash, hmg⟩ :=
      processRowRest_spec hInv h hid1 hid2 hid3 hid4 hid5 hm1 hm2
    exact ⟨hI, hg, b0, hbid, Or.inl rfl,
      item, start, ce, htr, hstart, hbind, hceI, hbillI, hhash, hmg⟩
  | none =>
    rw [hb0] at h
    simp only [] at h
    cases hcb : _create_cost_entry_bill cm providerId row st with
    | none => rw [hcb] at h; cases h
    | some trip =>
      obtain ⟨b0, row1, stb⟩ := trip
      rw [hcb] at h
      simp only [] at h
      obtain ⟨hInvb, hgrowb, hbindb, hnmb, hbidb, htrb, hprb, hlib⟩ :=
        create_bill_spec hInv hb0 hcb
      obtain ⟨hI, hg, hbid, item, start, ce, htr, hstart, hbind, hceI, hbillI, hhash, hmg⟩ :=
        processRowRest_spec hInvb h hid1 hid2 hid3 hid4 hid5 hm1 hm2
      refine ⟨hI, dbGrows_trans hgrowb hg, b0, hbid,
        Or.inr ⟨rfl, alLookup_grow hg.bills hbindb⟩,
        item, start, ce, ?_, ?_, hbind, hceI, hbillI, ?_, ?_⟩
      · rw [htr, htrb]
      · rw [← rowIntervalStart_nonMemory hnmb]
        exact hstart
      · rw [hhash, hashOfRow_nonMemory hnmb hm1 hm2]
      · rw [hmg, hlib, hprb]

theorem processRows_spec {cm : ColumnMaps} {providerId : Nat} {hashColumns : List String}
    {batchSize : Nat}
    (hid1 : "cost_entry_id" ∉ hashColumns)
    (hid2 : "cost_entry_bill_id" ∉ hashColumns)
    (hid3 : "cost_entry_product_id" ∉ hashColumns)
    (hid4 : "cost_entry_pricing_id" ∉ hashColumns)
    (hid5 : "cost_entry_reservation_id" ∉ hashColumns)
    (hm1 : alLookup cm.lineItem "product/memory" = none)
    (hm2 : alLookup cm.lineItem "product/memory_unit" = none) :
    ∀ (rows : List PyDict) (st stF : ProcState), RunInv st →
    processRows cm providerId hashColumns batchSize rows st = some stF →
    RunInv stF ∧ DbGrows st.db stF.db ∧
    (stF.billId = st.billId ∨ st.billId = none) ∧
    (rows ≠ [] → ∃ b, stF.billId = some b) ∧
    ∃ items, stF.trace = st.trace ++ items ∧ items.length = rows.length ∧
      mergeAll stF.db.lineItems stF.prLineItems =
        mergeAll (mergeAll st.db.lineItems st.prLineItems) items ∧
      (∀ b, stF.billId = some b →
        ∀ i (hi : i < rows.length) (hj : i < items.length),
          alLookup (items.get ⟨i, hj⟩) "cost_entry_bill_id" = some (idValue (some b)) ∧
          alLookup (items.get ⟨i, hj⟩) "hash" =
            some (hashOfRow cm hashColumns (rows.get ⟨i, hi⟩)) ∧
          ∃ start ce, rowIntervalStart (rows.get ⟨i, hi⟩) = some start ∧
            alLookup (costEntryMapOf stF.db) (b, start) = some ce ∧
            alLookup (items.get ⟨i, hj⟩) "cost_entry_id" = some (idValue (some ce))) ∧
      (∀ r1 rest2, rows = r1 :: rest2 → st.billId = none → ∀ b, stF.billId = some b →
        alLookup (billMapOf stF.db) (billKeyOf r1) = some b) := by
  intro rows
  induction rows with
  | nil =>
      intro st stF hInv h
      simp only [processRows, Option.some.injEq] at h
      rw [← h]
      refine ⟨hInv, dbGrows_refl _, Or.inl rfl, fun hc => absurd rfl hc,
        [], by simp, rfl, by simp [mergeAll], ?_, ?_⟩
      · intro b hb i hi hj
        exact absurd hi (by simp)
      · intro r1 rest2 hre
        cases hre
  | cons row rest ih =>
      intro st stF hInv h
      simp only [processRows] at h
      cases hp1 : processRow cm providerId hashColumns batchSize row st with
      | none => rw [hp1] at h; cases h
      | some st1 =>
        rw [hp1] at h
        simp only [] at h
        obtain ⟨hI1, hg1, b, hbid1, hbr, item, start0, ce0, htr1, hstart0, hbind0, hceI0,
          hbillI0, hhash0, hmg1⟩ := processRow_spec hInv hp1 hid1 hid2 hid3 hid4 hid5 hm1 hm2
        obtain ⟨hIF, hgF, hbidF, _hne, items, htrF, hlen, hmgF, hchar, hbillF⟩ :=
          ih st1 stF hI1 h
        have hbidF2 : stF.billId = some b := by
          rcases hbidF with he | hn
          · rw [he, hbid1]
          · rw [hn] at hbid1; cases hbid1
        refine ⟨hIF, dbGrows_trans hg1 hgF, ?_, fun _ => ⟨b, hbidF2⟩,
          item :: items, ?_, by simp [hlen], ?_, ?_, ?_⟩
        · rcases hbr with hb | ⟨hnone, _⟩
          · exact Or.inl (hbidF2.trans hb.symm)
          · exact Or.inr hnone
        · rw [htrF, htr1, List.append_assoc]
          rfl
        · rw [hmgF, hmg1]
          simp [mergeAll]
        · intro b' hb' i hi hj
          have hbb : b' = b := by
            rw [hbidF2] at hb'
            exact (Option.some.injEq _ _ ▸ hb').symm
          subst hbb
          cases i with
          | zero =>
              refine ⟨hbillI0, hhash0, start0, ce0, hstart0, ?_, hceI0⟩
              exact alLookup_grow hgF.ces hbind0
          | succ i =>
              have hi' : i < rest.length := Nat.lt_of_succ_lt_succ hi
              have hj' : i < items.length := Nat.lt_of_succ_lt_succ hj
              exact hchar b' hbidF2 i hi' hj'
        · intro r1 rest2 hre hnone b' hb'
          have hbb : b' = b := by
            rw [hbidF2] at hb'
            exact (Option.some.injEq _ _ ▸ hb').symm
          subst hbb
          have hrow : row = r1 := by
            injection hre with h1 h2
          rcases hbr with hb | ⟨_, hbindb⟩
          · rw [hnone] at hb; cases hb
          · rw [← hrow]
            exact alLookup_grow hgF.bills hbindb

theorem process_spec {cm : ColumnMaps} {providerId batchSize : Nat}
    {rows : List PyDict} {db0 : AwsDB} {stF : ProcState}
    (hid1 : "cost_entry_id" ∉ _get_line_item_hash_columns cm.lineItem)
    (hid2 : "cost_entry_bill_id" ∉ _get_line_item_hash_columns cm.lineItem)
    (hid3 : "cost_entry_product_id" ∉ _get_line_item_hash_columns cm.lineItem)
    (hid4 : "cost_entry_pricing_id" ∉ _get_line_item_hash_columns cm.lineItem)
    (hid5 : "cost_entry_reservation_id" ∉ _get_line_item_hash_columns cm.lineItem)
    (hm1 : alLookup cm.lineItem "product/memory" = none)
    (hm2 : alLookup cm.lineItem "product/memory_unit" = none)
    (h : process cm providerId batchSize rows (initProcState db0) = some stF) :
    stF.db.lineItems = mergeAll db0.lineItems stF.trace ∧
    stF.trace.length = rows.length ∧
    (rows ≠ [] → ∃ b, stF.billId = some b) ∧
    DbGrows db0 stF.db ∧
    (∀ b, stF.billId = some b →
      ∀ i (hi : i < rows.length) (hj : i < stF.trace.length),
        alLookup (stF.trace.get ⟨i, hj⟩) "cost_entry_bill_id" = some (idValue (some b)) ∧
        alLookup (stF.trace.get ⟨i, hj⟩) "hash" =
          some (hashOfRow cm (_get_line_item_hash_columns cm.lineItem) (rows.get ⟨i, hi⟩)) ∧
        ∃ start ce, rowIntervalStart (rows.get ⟨i, hi⟩) = some start ∧
          alLookup (costEntryMapOf stF.db) (b, start) = some ce ∧
          alLookup (stF.trace.get ⟨i, hj⟩) "cost_entry_id" = some (idValue (some ce))) ∧
    (∀ r1 rest2, rows = r1 :: rest2 → ∀ b, stF.billId = some b →
      alLookup (billMapOf stF.db) (billKeyOf r1) = some b) := by
  unfold process at h
  cases hM : processRows cm providerId (_get_line_item_hash_columns cm.lineItem) batchSize
      rows (initProcState db0) with
  | none => rw [hM] at h; cases h
  | some stM =>
    rw [hM] at h
    simp only [] at h
    obtain ⟨hIM, hgM, hbidM, hsomeM, items, htrM, hlenM, hmgM, hcharM, hbillM⟩ :=
      processRows_spec hid1 hid2 hid3 hid4 hid5 hm1 hm2 rows (initProcState db0) stM
        (runInv_init db0) hM
    have htrM2 : items = stM.trace := by
      rw [htrM]
      show items = ([] : List PyDict) ++ items
      simp
    subst htrM2
    have hliM : mergeAll stM.db.lineItems stM.prLineItems = mergeAll db0.lineItems stM.trace := by
      rw [hmgM]
      show mergeAll (mergeAll db0.lineItems []) stM.trace = mergeAll db0.lineItems stM.trace
      simp [mergeAll]
    have hgM2 : DbGrows db0 stM.db :=
      ⟨hgM.bills, hgM.ces, hgM.prods, hgM.prices, hgM.resvs⟩
    by_cases hpr : stM.prLineItems.isEmpty
    · rw [if_pos hpr] at h
      simp only [Option.some.injEq] at h
      have hprE : stM.prLineItems = [] := by
        cases hpl : stM.prLineItems
        · rfl
        · rw [hpl] at hpr; cases hpr
      rw [← h]
      refine ⟨?_, hlenM, hsomeM, hgM2, hcharM, ?_⟩
      · rw [hprE] at hliM
        exact hliM
      · intro r1 rest2 hre b hb
        exact hbillM r1 rest2 hre rfl b hb
    · rw [if_neg hpr] at h
      simp only [Option.some.injEq] at h
      have htempM : stM.db.tempLineItems = [] := hIM.tempE
      rw [← h]
      refine ⟨?_, hlenM, hsomeM, ?_, hcharM, ?_⟩
      · show mergeAll stM.db.lineItems (stM.db.tempLineItems ++ stM.prLineItems) =
          mergeAll db0.lineItems stM.trace
        rw [htempM, List.nil_append, hliM]
      · exact ⟨hgM2.bills, hgM2.ces, hgM2.prods, hgM2.prices, hgM2.resvs⟩
      · intro r1 rest2 hre b hb
        exact hbillM r1 rest2 hre rfl b hb

/-- C1: processing the same report file a second time after a completed
first run produces zero net new durable LineItem rows: the second run's line
items have, index for index, the same (content hash, cost-entry id) dedup key
as the first run's, so every staged row of the second run resolves through
the merge's conflict path (update-in-place) rather than inserting, the
durable LineItem count is unchanged, and no two durable LineItem rows ever
share (content hash, cost-entry id). -/
theorem second_processing_is_noop {cm : ColumnMaps} {providerId batchSize : Nat}
    {rows : List PyDict} {db0 : AwsDB} {st1 st2 : ProcState}
    (hid1 : "cost_entry_id" ∉ _get_line_item_hash_columns cm.lineItem)
    (hid2 : "cost_entry_bill_id" ∉ _get_line_item_hash_columns cm.lineItem)
    (hid3 : "cost_entry_product_id" ∉ _get_line_item_hash_columns cm.lineItem)
    (hid4 : "cost_entry_pricing_id" ∉ _get_line_item_hash_columns cm.lineItem)
    (hid5 : "cost_entry_reservation_id" ∉ _get_line_item_hash_columns cm.lineItem)
    (hm1 : alLookup cm.lineItem "product/memory" = none)
    (hm2 : alLookup cm.lineItem "product/memory_unit" = none)
    (hpw : db0.lineItems.Pairwise (fun r1 r2 => liKey r1 ≠ liKey r2))
    (h1 : process cm providerId batchSize rows (initProcState db0) = some st1)
    (h2 : process cm providerId batchSize rows (initProcState st1.db) = some st2) :
    st2.db.lineItems.length = st1.db.lineItems.length ∧
    st2.trace.length = rows.length ∧
    st1.trace.length = rows.length ∧
    (∀ i (hi2 : i < st2.trace.length) (hi1 : i < st1.trace.length),
      liKey (st2.trace.get ⟨i, hi2⟩) = liKey (st1.trace.get ⟨i, hi1⟩)) ∧
    st1.db.lineItems.Pairwise (fun r1 r2 => liKey r1 ≠ liKey r2) ∧
    st2.db.lineItems.Pairwise (fun r1 r2 => liKey r1 ≠ liKey r2) := by
  obtain ⟨hli1, hlen1, hsome1, hg1, hchar1, hbill1⟩ :=
    process_spec hid1 hid2 hid3 hid4 hid5 hm1 hm2 h1
  obtain ⟨hli2, hlen2, hsome2, hg2, hchar2, hbill2⟩ :=
    process_spec hid1 hid2 hid3 hid4 hid5 hm1 hm2 h2
  cases rows with
  | nil =>
    have ht1 : st1.trace = [] := List.length_eq_zero.mp hlen1
    have ht2 : st2.trace = [] := List.length_eq_zero.mp hlen2
    rw [ht1] at hli1
    rw [ht2] at hli2
    simp only [mergeAll, List.foldl_nil] at hli1 hli2
    refine ⟨by rw [hli2, hli1], hlen2, hlen1, ?_, by rw [hli1]; exact hpw,
      by rw [hli2, hli1]; exact hpw⟩
    intro i hi2 hi1
    rw [ht2] at hi2
    exact absurd hi2 (by simp)
  | cons r1 rest =>
    obtain ⟨b1, hb1⟩ := hsome1 (List.cons_ne_nil r1 rest)
    obtain ⟨b2, hb2⟩ := hsome2 (List.cons_ne_nil r1 rest)
    have hbb1 : alLookup (billMapOf st1.db) (billKeyOf r1) = some b1 :=
      hbill1 r1 rest rfl b1 hb1
    have hbb2 : alLookup (billMapOf st2.db) (billKeyOf r1) = some b2 :=
      hbill2 r1 rest rfl b2 hb2
    have hbb1' : alLookup (billMapOf st2.db) (billKeyOf r1) = some b1 :=
      alLookup_grow hg2.bills hbb1
    have hb21 : b2 = b1 := Option.some.inj (hbb2.symm.trans hbb1')
    have hkeys : ∀ i (hi2 : i < st2.trace.length) (hi1 : i < st1.trace.length),
        liKey (st2.trace.get ⟨i, hi2⟩) = liKey (st1.trace.get ⟨i, hi1⟩) := by
      intro i hi2 hi1
      have hiR : i < (r1 :: rest).length := by rw [← hlen2]; exact hi2
      obtain ⟨cb2, ch2, start2, ce2, hs2, hce2, hcid2⟩ := hchar2 b2 hb2 i hiR hi2
      obtain ⟨cb1, ch1, start1, ce1, hs1, hce1, hcid1⟩ := hchar1 b1 hb1 i hiR hi1
      have hstart : start2 = start1 := Option.some.inj (hs2.symm.trans hs1)
      rw [hb21, hstart] at hce2
      have hce1' : alLookup (costEntryMapOf st2.db) (b1, start1) = some ce1 :=
        alLookup_grow hg2.ces hce1
      have hce : ce2 = ce1 := Option.some.inj (hce2.symm.trans hce1')
      simp only [liKey]
      rw [ch2, hcid2, ch1, hcid1, hce]
    have hP1 : st1.db.lineItems.Pairwise (fun r1 r2 => liKey r1 ≠ liKey r2) := by
      rw [hli1]
      exact mergeAll_pairwise st1.trace db0.lineItems hpw
    have hall : ∀ r ∈ st2.trace, hasKey st1.db.lineItems (liKey r) := by
      intro r hr
      obtain ⟨⟨i, hi2⟩, rfl⟩ := List.mem_iff_get.mp hr
      have hi1 : i < st1.trace.length := by rw [hlen1, ← hlen2]; exact hi2
      rw [hkeys i hi2 hi1, hli1, mergeAll_hasKey]
      exact Or.inr ⟨st1.trace.get ⟨i, hi1⟩, List.get_mem _ _ _, rfl⟩
    refine ⟨?_, hlen2, hlen1, hkeys, hP1, ?_⟩
    · rw [hli2]
      exact mergeAll_length_of_all_hasKey st2.trace st1.db.lineItems hall
    · rw [hli2]
      exact mergeAll_pairwise st2.trace st1.db.lineItems hP1

/-- The state after one processing run of the two sample rows on an empty
durable store. -/
def c1st1 : ProcState :=
  (process sampleColumnMaps 7 1000 [sampleRow1, sampleRow2]
    (initProcState emptyAwsDB)).getD (initProcState emptyAwsDB)

/-- The state after re-processing the same two sample rows on the durable
store the first run produced. -/
def c1st2 : ProcState :=
  (process sampleColumnMaps 7 1000 [sampleRow1, sampleRow2]
    (initProcState c1st1.db)).getD (initProcState emptyAwsDB)

theorem second_processing_is_noop_witness :
    c1st2.db.lineItems.length = c1st1.db.lineItems.length ∧
    c1st2.trace.length = [sampleRow1, sampleRow2].length ∧
    c1st1.trace.length = [sampleRow1, sampleRow2].length ∧
    (∀ i (hi2 : i < c1st2.trace.length) (hi1 : i < c1st1.trace.length),
      liKey (c1st2.trace.get ⟨i, hi2⟩) = liKey (c1st1.trace.get ⟨i, hi1⟩)) ∧
    c1st1.db.lineItems.Pairwise (fun r1 r2 => liKey r1 ≠ liKey r2) ∧
    c1st2.db.lineItems.Pairwise (fun r1 r2 => liKey r1 ≠ liKey r2) :=
  @second_processing_is_noop sampleColumnMaps 7 1000 [sampleRow1, sampleRow2]
    emptyAwsDB c1st1 c1st2 (by decide) (by decide) (by decide) (by decide)
    (by decide) (by decide) (by decide) List.Pairwise.nil rfl rfl

/-- C7 (amended): `process` resolves the bill only once per file, from the
FIRST row's business key — not from each row's own key: when processing
succeeds on a nonempty file from a freshly initialised state, there is a
single bill id, bound in the durable bill map under the first row's
(bill_type, payer_account_id, billing_period_start) key, and every line item
produced for the file carries that one bill id in cost_entry_bill_id,
regardless of the later rows' own bill keys. -/
theorem process_single_bill_per_file {cm : ColumnMaps} {providerId batchSize : Nat}
    {rows : List PyDict} {db0 : AwsDB} {stF : ProcState} {r1 : PyDict} {rest : List PyDict}
    (hid1 : "cost_entry_id" ∉ _get_line_item_hash_columns cm.lineItem)
    (hid2 : "cost_entry_bill_id" ∉ _get_line_item_hash_columns cm.lineItem)
    (hid3 : "cost_entry_product_id" ∉ _get_line_item_hash_columns cm.lineItem)
    (hid4 : "cost_entry_pricing_id" ∉ _get_line_item_hash_columns cm.lineItem)
    (hid5 : "cost_entry_reservation_id" ∉ _get_line_item_hash_columns cm.lineItem)
    (hm1 : alLookup cm.lineItem "product/memory" = none)
    (hm2 : alLookup cm.lineItem "product/memory_unit" = none)
    (hrows : rows = r1 :: rest)
    (h : process cm providerId batchSize rows (initProcState db0) = some stF) :
    ∃ b, stF.billId = some b ∧
      alLookup (billMapOf stF.db) (billKeyOf r1) = some b ∧
      stF.trace.length = rows.length ∧
      ∀ i (hj : i < stF.trace.length),
        alLookup (stF.trace.get ⟨i, hj⟩) "cost_entry_bill_id" =
          some (idValue (some b)) := by
  obtain ⟨hli, hlen, hsome, hg, hchar, hbill⟩ :=
    process_spec hid1 hid2 hid3 hid4 hid5 hm1 hm2 h
  obtain ⟨b, hb⟩ := hsome (by rw [hrows]; exact List.cons_ne_nil r1 rest)
  refine ⟨b, hb, hbill r1 rest hrows b hb, hlen, ?_⟩
  intro i hj
  have hiR : i < rows.length := by rw [← hlen]; exact hj
  exact (hchar b hb i hiR hj).1

theorem process_single_bill_per_file_witness :
    ∃ b, c1st1.billId = some b ∧
      alLookup (billMapOf c1st1.db) (billKeyOf sampleRow1) = some b ∧
      c1st1.trace.length = [sampleRow1, sampleRow2].length ∧
      ∀ i (hj : i < c1st1.trace.length),
        alLookup (c1st1.trace.get ⟨i, hj⟩) "cost_entry_bill_id" =
          some (idValue (some b)) :=
  @process_single_bill_per_file sampleColumnMaps 7 1000 [sampleRow1, sampleRow2]
    emptyAwsDB c1st1 sampleRow1 [sampleRow2] (by decide) (by decide) (by decide)
    (by decide) (by decide) (by decide) (by decide) rfl rfl
